import Mathlib

/-!
Verification development for the palomadex-wynndao deployment scripts.

The repository holds two variants of one Node.js deployment script:
`src/scripts/deploy/index.js` and `src/unnamed/part_000`.  Each is a linear
orchestration of remote calls against a CosmWasm chain client.  We embed the
scripts shallowly: chain interactions become nodes of a free-monad-style
`Script` type, the chain itself is an oracle assigning a response to every
call, JavaScript exceptions become an explicit error type, and the JSON
configuration files become Lean structures.  Running a script against an
oracle yields the script's result together with the trace of issued requests.
-/

set_option linter.unusedVariables false

namespace Palomadex

/-- A wasm event attribute (a key/value pair of strings). -/
structure Attr where
  key : String
  value : String
deriving DecidableEq, Repr

/-- A transaction event: a type tag plus attributes. -/
structure Event where
  type : String
  attributes : List Attr
deriving DecidableEq, Repr

/-- One entry of `result.logs`: a list of events. -/
structure TxLog where
  events : List Event
deriving DecidableEq, Repr

/-- The result object of `client.execute`: both the legacy `logs` field and
the flat `events` field are present on the receipt. -/
structure ExecResult where
  logs : List TxLog
  events : List Event
deriving DecidableEq, Repr, Inhabited

/-- An upload receipt as inspected by the scripts (`uploadReceipt.codeId`).
JavaScript treats `codeId` of `0` as falsy in `if (uploadReceipt && uploadReceipt.codeId)`. -/
structure UploadReceipt where
  codeId : Nat
deriving DecidableEq, Repr

/-- An error rejected by a chain-client call.  The scripts inspect
`error.message` and `error.response?.uploadReceipt`. -/
structure ChainError where
  message : String
  responseUploadReceipt : Option UploadReceipt
deriving DecidableEq, Repr

/-- JavaScript exceptions that can cross the scripts' control flow. -/
inductive JsError where
  /-- `ReferenceError: <name> is not defined` from evaluating an unbound identifier. -/
  | referenceError (name : String)
  /-- `throw new Error(message)` raised by the script itself. -/
  | jsError (message : String)
  /-- a rejection from a chain-client call propagated by `await`. -/
  | chainError (e : ChainError)
  /-- `TypeError` from reading a property of `undefined`. -/
  | typeError (message : String)
deriving DecidableEq, Repr

/-- A dynamically typed JavaScript value, for places where the scripts may
hold a string, a number or `undefined` (e.g. `instantiateContract`'s result). -/
inductive JsVal where
  | str (s : String)
  | num (n : Nat)
  | undefined
deriving DecidableEq, Repr

/-- Messages sent to contracts.  Configuration-file messages are opaque
(`raw`); the shapes the scripts build or inspect themselves get constructors. -/
inductive Msg where
  /-- an opaque JSON message taken verbatim from a configuration file. -/
  | raw (s : String)
  /-- a gauge-creation message; the scripts read `msg.create_gauge.title`. -/
  | createGauge (title : String) (payload : String)
  /-- the CW20 instantiation message built in `index.js` `main`
  (only the fields relevant to control flow are kept). -/
  | cw20Init (initialBalanceAddress : String) (minter : String)
  /-- the DAO-core instantiation message built by `instantiateDaoCoreWithModules`. -/
  | daoCore (admin : String) (votingCodeId : JsVal) (proposalCodeId : JsVal) (cw20Contract : String)
deriving DecidableEq, Repr, Inhabited

/-- A gauge message as stored in `gauges_config.json`:
`{ create_gauge: { title: ..., ... } }`. -/
structure GaugeMsg where
  title : String
  payload : String
deriving DecidableEq, Repr, Inhabited

/-- View a gauge configuration entry as the message sent on the wire. -/
def GaugeMsg.toMsg (g : GaugeMsg) : Msg := .createGauge g.title g.payload

/-- A request issued to the chain client.  Fees and memos that are pure
functions of the other fields are omitted. -/
inductive Request where
  /-- `SigningCosmWasmClient.connectWithSigner(rpcEndpoint, ...)`. -/
  | connectWithSigner (rpcEndpoint : String)
  /-- `client.getBalance(address, feeToken)`. -/
  | getBalance (address : String) (denom : String)
  /-- `client.getChainId()`. -/
  | getChainId
  /-- `client.upload(sender, readFileSync(__dirname + wasmPath), fee, memo)`;
  the binary is identified by its path, the memo by the label. -/
  | upload (sender : String) (wasmPath : String) (label : String)
  /-- `client.instantiate(sender, codeId, msg, label, fee, { memo, admin })`. -/
  | instantiate (sender : String) (codeId : JsVal) (msg : Msg) (label : String) (admin : String)
  /-- `client.execute(sender, contractAddress, msg, fee)`. -/
  | execute (sender : String) (contract : JsVal) (msg : Msg)
deriving DecidableEq, Repr

/-- A successful chain response, by shape. -/
inductive Value where
  /-- an opaque success carrying no field the scripts read (e.g. the client object). -/
  | unit
  /-- a balance object (`amount`, `denom`). -/
  | balance (amount : String) (denom : String)
  /-- the string returned by `getChainId`. -/
  | chainId (s : String)
  /-- an upload receipt. -/
  | upReceipt (r : UploadReceipt)
  /-- an instantiation result carrying `contractAddress`. -/
  | instantiated (contractAddress : String)
  /-- an execution result carrying `logs` and `events`. -/
  | executed (r : ExecResult)
deriving DecidableEq, Repr

/-- A chain response: either a rejection or a success value. -/
abbrev ChainResponse := Except ChainError Value

/-- A script: a sequential program interacting with the chain client and the
operator.  `call` issues one chain request and continues with its response;
`ask` is a `stdio.ask` operator checkpoint (it involves no chain call);
`fail` is an uncaught JavaScript exception. -/
inductive Script (α : Type) where
  | pure (a : α)
  | fail (e : JsError)
  | ask (prompt : String) (k : Unit → Script α)
  | call (req : Request) (k : ChainResponse → Script α)

namespace Script

/-- Sequencing of scripts (the semicolon / `await` chaining of the source). -/
def bind : Script α → (α → Script β) → Script β
  | .pure a, f => f a
  | .fail e, _ => .fail e
  | .ask p k, f => .ask p (fun u => bind (k u) f)
  | .call r k, f => .call r (fun resp => bind (k resp) f)

instance : Monad Script where
  pure := Script.pure
  bind := Script.bind

/-- Issue one chain request and return its raw response. -/
def callC (req : Request) : Script ChainResponse := .call req .pure

/-- An `await stdio.ask(prompt, ...)` checkpoint. -/
def askC (prompt : String) : Script Unit := .ask prompt .pure

/-- Evaluation of an identifier that is bound nowhere in scope: JavaScript
throws `ReferenceError: <name> is not defined`. -/
def jsRefString (name : String) : Script String := .fail (.referenceError name)

/-- Run a script against an oracle `f` assigning a response to the `n`-th
chain call, starting at call index `n`.  Returns the script's outcome and
the trace of issued requests, each paired with its call index.  A `.ok`
outcome means `main` reached its end (for the mains: `result.json` written);
`.error` means the process exits with non-zero status. -/
def runT : Script α → (Nat → ChainResponse) → Nat → Except JsError α × List (Nat × Request)
  | .pure a, _, _ => (.ok a, [])
  | .fail e, _, _ => (.error e, [])
  | .ask _ k, f, n => (k ()).runT f n
  | .call req k, f, n =>
      let r := (k (f n)).runT f (n + 1)
      (r.1, (n, req) :: r.2)

/-- Run a script against a finite list of already-received responses and
return the requests it issues: with the listed responses delivered in order,
these are exactly the chain calls the script has started.  When the
responses run out, at most the one request currently awaited is reported. -/
def runL : Script α → List ChainResponse → List Request
  | .pure _, _ => []
  | .fail _, _ => []
  | .ask _ k, rs => (k ()).runL rs
  | .call req _, [] => [req]
  | .call req k, r :: rs => req :: (k r).runL rs

@[simp] theorem runT_pure (a : α) (f : Nat → ChainResponse) (n : Nat) :
    (Script.pure a).runT f n = (.ok a, []) := rfl

@[simp] theorem runT_fail (e : JsError) (f : Nat → ChainResponse) (n : Nat) :
    (Script.fail (α := α) e).runT f n = (.error e, []) := rfl

@[simp] theorem runT_ask (p : String) (k : Unit → Script α) (f : Nat → ChainResponse) (n : Nat) :
    (Script.ask p k).runT f n = (k ()).runT f n := rfl

@[simp] theorem runT_call (req : Request) (k : ChainResponse → Script α)
    (f : Nat → ChainResponse) (n : Nat) :
    (Script.call req k).runT f n =
      (((k (f n)).runT f (n + 1)).1, (n, req) :: ((k (f n)).runT f (n + 1)).2) := rfl

@[simp] theorem runT_callC (req : Request) (f : Nat → ChainResponse) (n : Nat) :
    (callC req).runT f n = (.ok (f n), [(n, req)]) := rfl

@[simp] theorem runT_askC (p : String) (f : Nat → ChainResponse) (n : Nat) :
    (askC p).runT f n = (.ok (), []) := rfl

@[simp] theorem runT_pure_monadic (a : α) (f : Nat → ChainResponse) (n : Nat) :
    (Pure.pure a : Script α).runT f n = (.ok a, []) := rfl

theorem bind_def (m : Script α) (g : α → Script β) : m >>= g = m.bind g := rfl

/-- Sequencing lemma: running `m >>= g` first runs `m`, then (on success)
runs `g` from the call index advanced by the number of calls `m` made. -/
theorem runT_bind (m : Script α) (g : α → Script β) (f : Nat → ChainResponse) (n : Nat) :
    (m >>= g).runT f n =
      match m.runT f n with
      | (.error e, tr) => (.error e, tr)
      | (.ok a, tr) =>
          (((g a).runT f (n + tr.length)).1, tr ++ ((g a).runT f (n + tr.length)).2) := by
  rw [bind_def]
  induction m generalizing n with
  | pure a =>
      simp [runT, bind]
  | fail e =>
      simp [runT, bind]
  | ask p k ih =>
      simp only [runT, bind]
      exact ih () n
  | call req k ih =>
      simp only [runT, bind]
      have h := ih (f n) (n + 1)
      rcases hm : (k (f n)).runT f (n + 1) with ⟨res, tr⟩
      rw [hm] at h
      cases res with
      | error e => simp [h, hm]
      | ok a =>
          simp only [h, hm]
          have hidx : n + 1 + tr.length = n + (tr.length + 1) := by omega
          simp [hidx]

end Script

/-! ## Configuration records (the JSON files read from disk) -/

/-- `configs/paloma_config.json` as consumed by `connect` and `main`.
`addrPrefix` models the file's Bech32 `prefix` field. -/
structure PalomaConfig where
  addrPrefix : String
  gasPrice : String
  feeToken : String
  rpcEndpoint : String
  chainId : String
deriving DecidableEq, Repr

/-- A contract-instantiation configuration object: the scripts read
`config.label` and `config.instantiate`. -/
structure ContractConfig where
  label : String
  instantiate : Msg
deriving DecidableEq, Repr, Inhabited

/-- `configs/factory_config.json`: instantiation data plus `create_pairs`. -/
structure FactoryConfig where
  label : String
  instantiate : Msg
  create_pairs : List Msg
deriving DecidableEq, Repr

/-- The factory configuration viewed as an instantiation configuration. -/
def FactoryConfig.toContractConfig (c : FactoryConfig) : ContractConfig :=
  ⟨c.label, c.instantiate⟩

/-- `configs/gauges_config.json`: orchestrator and adapter instantiation
data plus the gauge-creation messages. -/
structure GaugesConfig where
  orchestrator : ContractConfig
  adapters : List ContractConfig
  gauges : List GaugeMsg
deriving DecidableEq, Repr

/-- An entry of the `pairs` list built by `createPairsAndDistributionFlows`. -/
structure PairInfo where
  pairName : String
  pairAddress : String
deriving DecidableEq, Repr, Inhabited

/-- An entry of the `adapters` list built by `instantiateGaugeAdapters`. -/
structure Adapter where
  label : String
  address : JsVal
deriving DecidableEq, Repr

/-- An entry of the `gauges` list built by `createGauges`. -/
structure GaugeInfo where
  gaugeLabel : String
  gaugeAddress : String
deriving DecidableEq, Repr

/-! ## Shared helper functions (identical in both script variants) -/

/-- Containment of a character list at any position of another. -/
def listInfix (sub : List Char) : List Char → Bool
  | [] => sub.isEmpty
  | c :: rest => sub.isPrefixOf (c :: rest) || listInfix sub rest

/-- JavaScript `String.prototype.includes`: substring containment. -/
def strIncludes (s sub : String) : Bool := listInfix sub.toList s.toList

/-- JavaScript `String.prototype.trim`: strip leading and trailing
whitespace. -/
def jsTrim (s : String) : String :=
  String.mk (((s.data.dropWhile Char.isWhitespace).reverse.dropWhile Char.isWhitespace).reverse)

/-- The client-library quirk message string-matched by the swallowing catch blocks. -/
def invalidBase64Msg : String := "Invalid string. Length must be a multiple of 4"

/-- The message of the `Error` thrown by `getMnemonic`. -/
def mnemonicErrMsg : String := "Must set MNEMONIC to a 12 word phrase"

/-- The `TypeError` message for reading a property of `undefined`. -/
def undefinedPropMsg : String := "Cannot read properties of undefined"

/-- `getMnemonic` (`index.js` lines 32-38, `part_000` lines 25-31): returns
`env["MNEMONIC"]` unless it is unset, empty or shorter than 48 characters,
in which case it throws.  An unset variable is `none`; the empty string is
falsy in JavaScript and is also rejected by the length test. -/
def getMnemonic (envMnemonic : Option String) : Except JsError String :=
  match envMnemonic with
  | none => .error (.jsError mnemonicErrMsg)
  | some mnemonic =>
      if mnemonic.length < 48 then .error (.jsError mnemonicErrMsg)
      else .ok mnemonic

/-- JavaScript `chainId !== palomaConfig.chainId`, negated: strict equality
of the response value against the configured string; a response of any
non-string shape is never strictly equal to a string. -/
def chainIdMatches (v : Value) (cfg : String) : Bool :=
  match v with
  | .chainId s => s == cfg
  | _ => false

/-- `storeContract` (`index.js` lines 70-102, `part_000` lines 65-97): upload
the binary and return `uploadReceipt.codeId`.  A rejection whose message
contains `invalidBase64Msg` is swallowed: if `error.response?.uploadReceipt`
carries a truthy `codeId` that id is returned, otherwise the function falls
through and returns `undefined` (`none`).  Any other rejection is re-thrown. -/
def storeContract (wallet gasPriceS label wasmPath : String) : Script (Option Nat) := do
  let resp ← Script.callC (.upload wallet wasmPath label)
  match resp with
  | .ok (.upReceipt uploadReceipt) => pure (some uploadReceipt.codeId)
  | .ok _ => pure none
  | .error error =>
      if strIncludes error.message invalidBase64Msg then
        match error.responseUploadReceipt with
        | some uploadReceipt =>
            if uploadReceipt.codeId ≠ 0 then pure (some uploadReceipt.codeId)
            else pure none
        | none => pure none
      else Script.fail (.chainError error)

/-- `instantiateContract` (`index.js` lines 104-138, `part_000` lines 99-133):
instantiate `codeId` with `config.instantiate` and return `contractAddress`.
The same base64 rejection is swallowed, but in the branch that would return
the receipt's `codeId` the function first evaluates the identifier `label`
in `console.info(label + ...)`; `label` is bound nowhere in
`instantiateContract` (its parameter is `config`), so that branch throws a
`ReferenceError` instead of returning.  Without a receipt the swallowed
branch falls through and returns `undefined`. -/
def instantiateContract (wallet gasPriceS : String) (config : ContractConfig)
    (codeId : JsVal) : Script JsVal := do
  let resp ← Script.callC (.instantiate wallet codeId config.instantiate config.label wallet)
  match resp with
  | .ok (.instantiated contractAddress) => pure (.str contractAddress)
  | .ok _ => pure .undefined
  | .error error =>
      if strIncludes error.message invalidBase64Msg then
        match error.responseUploadReceipt with
        | some uploadReceipt =>
            if uploadReceipt.codeId ≠ 0 then do
              let _ ← Script.jsRefString "label"
              pure (.num uploadReceipt.codeId)
            else pure .undefined
        | none => pure .undefined
      else Script.fail (.chainError error)

/-- `instantiateGaugeAdapters` (`index.js` lines 254-283, `part_000` lines
168-197): instantiate `codeId` once per adapter configuration and collect
label/address records.  Rejections propagate (no catch). -/
def instantiateGaugeAdapters (wallet gasPriceS : String) (codeId : JsVal) :
    List ContractConfig → Script (List Adapter)
  | [] => pure []
  | cfg :: rest => do
      let resp ← Script.callC (.instantiate wallet codeId cfg.instantiate cfg.label wallet)
      match resp with
      | .error e => Script.fail (.chainError e)
      | .ok v => do
          let contractAddress : JsVal :=
            match v with
            | .instantiated a => .str a
            | _ => .undefined
          let adapters ← instantiateGaugeAdapters wallet gasPriceS codeId rest
          pure (⟨cfg.label, contractAddress⟩ :: adapters)

/-- `createGauges` (`index.js` lines 285-313, `part_000` lines 199-227):
execute each gauge message against the orchestrator address, then read the
`_contract_address` attribute of the first `wasm` event of `result.logs[0]`.
A missing log, event or attribute is a `TypeError`; rejections propagate. -/
def createGauges (wallet gasPriceS : String) :
    List GaugeMsg → JsVal → Script (List GaugeInfo)
  | [], _ => pure []
  | m :: rest, gaugeOrchestratorAddress => do
      let resp ← Script.callC (.execute wallet gaugeOrchestratorAddress m.toMsg)
      match resp with
      | .error e => Script.fail (.chainError e)
      | .ok (.executed result) =>
          match result.logs.head? with
          | none => Script.fail (.typeError undefinedPropMsg)
          | some log0 =>
              match log0.events.find? (fun e => e.type == "wasm") with
              | none => Script.fail (.typeError undefinedPropMsg)
              | some ev =>
                  match ev.attributes.find? (fun a => a.key == "_contract_address") with
                  | none => Script.fail (.typeError undefinedPropMsg)
                  | some gaugeAddress => do
                      let gauges ← createGauges wallet gasPriceS rest gaugeOrchestratorAddress
                      pure (⟨m.title, gaugeAddress.value⟩ :: gauges)
      | .ok _ => Script.fail (.typeError undefinedPropMsg)

/-! ## Wasm paths and operator prompts appearing in the scripts -/

def factoryWasmPath : String := "/contracts/wyndex_factory.wasm"

def daoCoreWasmPath : String := "/contracts/dao_core.wasm"

def proposalSingleWasmPath : String := "/contracts/proposal_single.wasm"

def cw4StakeWasmPath : String := "/contracts/cw4_stake.wasm"

def askFactoryPrompt : String :=
  "\nUpdate configs/factory_config.json using proper codeIDs from above and press ENTER to continue"

def askMultiHopPrompt : String :=
  "Update configs/multi_hop_config.json and configs/gauges_config.json using factory\x27s address from above and press ENTER to continue"

def askGaugesPrompt : String :=
  "Update configs/gauges_config.json and paste proper gaugeAdapter addresses into proper create_gauge messages; press ENTER when ready to continue"

/-- The message of `throw new Error("No 'wasm' events found.")` in the
`index.js` variant of `createPairsAndDistributionFlows`. -/
def noWasmEventsMsg : String := "No \x27wasm\x27 events found."

/-! ## The `index.js` variant -/

namespace Idx

/-- The chain-id mismatch error message thrown by the `index.js` `connect`. -/
def chainIdMismatchMsg : String := "Given ChainId doesn\x27t match the client\x27s ChainID!"

/-- `connect` (`index.js` lines 40-68).  Wallet derivation
(`DirectSecp256k1HdWallet.fromMnemonic` + `getAccounts` on path
m/44h/118h/0h/0/0) is modelled by the `derive` parameter; its failure
propagates.  The `catch` block only logs and re-throws, so errors inside the
`try` propagate unchanged.  On success the derived first-account address is
returned (the client object is implicit in the oracle). -/
def connect (mnemonic : String) (palomaConfig : PalomaConfig)
    (derive : String → Except JsError String) : Script String := do
  match derive mnemonic with
  | .error e => Script.fail e
  | .ok address => do
      let c ← Script.callC (.connectWithSigner palomaConfig.rpcEndpoint)
      match c with
      | .error e => Script.fail (.chainError e)
      | .ok _ => do
          let b ← Script.callC (.getBalance address palomaConfig.feeToken)
          match b with
          | .error e => Script.fail (.chainError e)
          | .ok _ => do
              let r ← Script.callC .getChainId
              match r with
              | .error e => Script.fail (.chainError e)
              | .ok chainId =>
                  if chainIdMatches chainId palomaConfig.chainId then pure address
                  else Script.fail (.jsError chainIdMismatchMsg)

/-- One iteration step of the `create_pairs` loop of the `index.js`
`createPairsAndDistributionFlows` (lines 148-179), extracting one pair
record per `wasm` event that carries both the `pair` and the
`pair_contract_addr` attributes (`find` takes the first attribute of each key). -/
def pairOfEvent (event : Event) : Option PairInfo :=
  match event.attributes.find? (fun a => a.key == "pair"),
        event.attributes.find? (fun a => a.key == "pair_contract_addr") with
  | some pairName, some pairAddress => some ⟨pairName.value, pairAddress.value⟩
  | _, _ => none

/-- The loop body of the `index.js` `createPairsAndDistributionFlows`
(lines 140-182): execute each `create_pairs` message against the factory
address, filter `result.events` for `type.trim() === "wasm"`, throw when no
such event exists, and push one entry per wasm event carrying both
attributes. -/
def createPairsLoop (wallet : String) (factoryAddress : JsVal) :
    List Msg → Script (List PairInfo)
  | [] => pure []
  | m :: rest => do
      let resp ← Script.callC (.execute wallet factoryAddress m)
      match resp with
      | .error e => Script.fail (.chainError e)
      | .ok (.executed result) =>
          let wasmEvents := result.events.filter (fun e => jsTrim e.type == "wasm")
          if wasmEvents.length = 0 then
            Script.fail (.jsError noWasmEventsMsg)
          else do
            let pairs ← createPairsLoop wallet factoryAddress rest
            pure (wasmEvents.filterMap pairOfEvent ++ pairs)
      | .ok _ => Script.fail (.typeError undefinedPropMsg)

/-- `createPairsAndDistributionFlows`, `index.js` variant: iterate
`createPairsLoop` over `config.create_pairs`. -/
def createPairsAndDistributionFlows (wallet gasPriceS : String) (config : FactoryConfig)
    (factoryAddress : JsVal) : Script (List PairInfo) :=
  createPairsLoop wallet factoryAddress config.create_pairs

/-- `instantiateDaoCoreWithModules` (`index.js` lines 184-252): build the
DAO-core instantiation message and instantiate it; rejections propagate
(no catch).  Only the message parts relevant to data flow are retained. -/
def instantiateDaoCoreWithModules (wallet gasPriceS : String)
    (daoCoreCodeId cw4StakeCodeId proposalSingleCodeId : JsVal) (cw20Contract : String) :
    Script JsVal := do
  let resp ← Script.callC (.instantiate wallet daoCoreCodeId
      (.daoCore wallet cw4StakeCodeId proposalSingleCodeId cw20Contract)
      "DAO Core with Modules" wallet)
  match resp with
  | .error e => Script.fail (.chainError e)
  | .ok (.instantiated daoCoreAddress) => pure (.str daoCoreAddress)
  | .ok _ => pure .undefined

/-- The `raport` record written to `result.json` by the `index.js` `main`
(lines 399-414): the gauge entries are commented out there. -/
structure Report where
  tokenCodeId : Nat
  pairCodeId : Nat
  pairStableCodeId : Nat
  stakeCodeId : Nat
  multiHopCodeId : Nat
  factoryCodeId : Nat
  gaugeOrchestratorCodeId : Nat
  gaugeAdapterCodeId : Nat
  factoryAddress : JsVal
  multiHopAddress : JsVal
  pairs : List PairInfo
deriving DecidableEq, Repr

/-- `undefined`-or-number lifting of a stored code id into the dynamically
typed argument position of `client.instantiate`. -/
def jsOfCode : Option Nat → JsVal
  | some n => .num n
  | none => .undefined

/-- `main` of `index.js` (lines 315-417).  The eight code ids are hard-coded
(lines 324-331; the `storeContract` calls are commented out).  The body
evaluates the module-unbound identifiers `wallet` (first inside
`cw20InstantiateMsg`, line 351) and `cw20Contract` (line 385) at the
positions marked by `jsRefString`.  Reaching `pure` models the
`fs.writeFileSync("result.json", ...)` at line 415. -/
def main (envMnemonic : Option String) (derive : String → Except JsError String)
    (palomaConfig : PalomaConfig) (factoryConfig : FactoryConfig)
    (multiHopConfig : ContractConfig) : Script Report := do
  match getMnemonic envMnemonic with
  | .error e => Script.fail e
  | .ok mnemonic => do
      let address ← connect mnemonic palomaConfig derive
      let tokenCodeId := 6
      let pairCodeId := 7
      let pairStableCodeId := 8
      let stakeCodeId := 9
      let factoryCodeId := 5
      let multiHopCodeId := 10
      let gaugeOrchestratorCodeId := 11
      let gaugeAdapterCodeId := 12
      Script.askC askFactoryPrompt
      let minter ← Script.jsRefString "wallet"
      let cw20InstantiateMsg := Msg.cw20Init address minter
      let wallet1 ← Script.jsRefString "wallet"
      let _cw20TokenAddress ← instantiateContract wallet1 palomaConfig.gasPrice
        ⟨"MyToken Contract", cw20InstantiateMsg⟩ (.num tokenCodeId)
      let factoryAddress ← instantiateContract address palomaConfig.gasPrice
        factoryConfig.toContractConfig (.num factoryCodeId)
      Script.askC askMultiHopPrompt
      let multiHopAddress ← instantiateContract address palomaConfig.gasPrice
        multiHopConfig (.num multiHopCodeId)
      let pairs ← createPairsAndDistributionFlows address palomaConfig.gasPrice
        factoryConfig factoryAddress
      let wallet2 ← Script.jsRefString "wallet"
      let daoCoreCodeId ← storeContract wallet2 palomaConfig.gasPrice "dao-core" daoCoreWasmPath
      let wallet3 ← Script.jsRefString "wallet"
      let proposalSingleCodeId ← storeContract wallet3 palomaConfig.gasPrice
        "proposal-single" proposalSingleWasmPath
      let wallet4 ← Script.jsRefString "wallet"
      let cw4StakeCodeId ← storeContract wallet4 palomaConfig.gasPrice "cw4-stake" cw4StakeWasmPath
      let wallet5 ← Script.jsRefString "wallet"
      let cw20Contract ← Script.jsRefString "cw20Contract"
      let _daoCoreAddress ← instantiateDaoCoreWithModules wallet5 palomaConfig.gasPrice
        (jsOfCode daoCoreCodeId) (jsOfCode cw4StakeCodeId) (jsOfCode proposalSingleCodeId)
        cw20Contract
      pure { tokenCodeId, pairCodeId, pairStableCodeId, stakeCodeId, multiHopCodeId,
             factoryCodeId, gaugeOrchestratorCodeId, gaugeAdapterCodeId,
             factoryAddress, multiHopAddress, pairs }

end Idx

/-! ## The `part_000` variant -/

namespace P0

/-- The chain-id mismatch error message thrown by the `part_000` `connect`. -/
def chainIdMismatchMsg : String := "Given ChainId doesn\x27t match the clients ChainID!"

/-- `connect` (`part_000` lines 33-63); identical to the `index.js` variant
except for the wording of the mismatch error. -/
def connect (mnemonic : String) (palomaConfig : PalomaConfig)
    (derive : String → Except JsError String) : Script String := do
  match derive mnemonic with
  | .error e => Script.fail e
  | .ok address => do
      let c ← Script.callC (.connectWithSigner palomaConfig.rpcEndpoint)
      match c with
      | .error e => Script.fail (.chainError e)
      | .ok _ => do
          let b ← Script.callC (.getBalance address palomaConfig.feeToken)
          match b with
          | .error e => Script.fail (.chainError e)
          | .ok _ => do
              let r ← Script.callC .getChainId
              match r with
              | .error e => Script.fail (.chainError e)
              | .ok chainId =>
                  if chainIdMatches chainId palomaConfig.chainId then pure address
                  else Script.fail (.jsError chainIdMismatchMsg)

/-- The loop body of the `part_000` `createPairsAndDistributionFlows`
(lines 135-166): execute each `create_pairs` message against the factory
address, then read the `pair` and `pair_contract_addr` attributes of the
first `wasm` event of `result.logs[0]`.  A missing log, event or attribute
is a `TypeError`; rejections propagate. -/
def createPairsLoop (wallet : String) (factoryAddress : JsVal) :
    List Msg → Script (List PairInfo)
  | [] => pure []
  | m :: rest => do
      let resp ← Script.callC (.execute wallet factoryAddress m)
      match resp with
      | .error e => Script.fail (.chainError e)
      | .ok (.executed result) =>
          match result.logs.head? with
          | none => Script.fail (.typeError undefinedPropMsg)
          | some log0 =>
              match log0.events.find? (fun e => e.type == "wasm") with
              | none => Script.fail (.typeError undefinedPropMsg)
              | some ev =>
                  match ev.attributes.find? (fun a => a.key == "pair") with
                  | none => Script.fail (.typeError undefinedPropMsg)
                  | some pairName =>
                      match ev.attributes.find? (fun a => a.key == "pair_contract_addr") with
                      | none => Script.fail (.typeError undefinedPropMsg)
                      | some pairAddress => do
                          let pairs ← createPairsLoop wallet factoryAddress rest
                          pure (⟨pairName.value, pairAddress.value⟩ :: pairs)
      | .ok _ => Script.fail (.typeError undefinedPropMsg)

/-- `createPairsAndDistributionFlows`, `part_000` variant. -/
def createPairsAndDistributionFlows (wallet gasPriceS : String) (config : FactoryConfig)
    (factoryAddress : JsVal) : Script (List PairInfo) :=
  createPairsLoop wallet factoryAddress config.create_pairs

/-- The hard-coded factory address of `part_000` `main` (line 257); the
`instantiateContract` call for the factory is commented out there. -/
def factoryAddressConst : String :=
  "paloma1sthrn5ep8ls5vzz8f9gp89khhmedahhdqd244dh9uqzk3hx2pzrsr8facx"

/-- The `raport` record written to `result.json` by the `part_000` `main`
(lines 280-295). -/
structure Report where
  tokenCodeId : Nat
  pairCodeId : Nat
  pairStableCodeId : Nat
  stakeCodeId : Nat
  multiHopCodeId : Nat
  factoryCodeId : Nat
  gaugeOrchestratorCodeId : Nat
  gaugeAdapterCodeId : Nat
  factoryAddress : JsVal
  multiHopAddress : JsVal
  pairs : List PairInfo
  gaugeOrchestratorAddress : JsVal
  gaugeAdapters : List Adapter
  gauges : List GaugeInfo
deriving DecidableEq, Repr

/-- `main` of `part_000` (lines 229-298).  The eight code ids are hard-coded
(lines 238-245) and the factory address is the hard-coded constant of line
257.  Reaching `pure` models the `fs.writeFileSync("result.json", ...)` at
line 296. -/
def main (envMnemonic : Option String) (derive : String → Except JsError String)
    (palomaConfig : PalomaConfig) (factoryConfig : FactoryConfig)
    (multiHopConfig : ContractConfig) (gaugesConfig : GaugesConfig) : Script Report := do
  match getMnemonic envMnemonic with
  | .error e => Script.fail e
  | .ok mnemonic => do
      let address ← connect mnemonic palomaConfig derive
      let tokenCodeId := 6
      let pairCodeId := 7
      let pairStableCodeId := 8
      let stakeCodeId := 9
      let factoryCodeId := 5
      let multiHopCodeId := 10
      let gaugeOrchestratorCodeId := 11
      let gaugeAdapterCodeId := 12
      Script.askC askFactoryPrompt
      let factoryAddress := factoryAddressConst
      Script.askC askMultiHopPrompt
      let multiHopAddress ← instantiateContract address palomaConfig.gasPrice
        multiHopConfig (.num multiHopCodeId)
      let pairs ← createPairsAndDistributionFlows address palomaConfig.gasPrice
        factoryConfig (.str factoryAddress)
      let gaugeOrchestratorAddress ← instantiateContract address palomaConfig.gasPrice
        gaugesConfig.orchestrator (.num gaugeOrchestratorCodeId)
      let gaugeAdapters ← instantiateGaugeAdapters address palomaConfig.gasPrice
        (.num gaugeAdapterCodeId) gaugesConfig.adapters
      Script.askC askGaugesPrompt
      let gauges ← createGauges address palomaConfig.gasPrice gaugesConfig.gauges
        gaugeOrchestratorAddress
      pure { tokenCodeId, pairCodeId, pairStableCodeId, stakeCodeId, multiHopCodeId,
             factoryCodeId, gaugeOrchestratorCodeId, gaugeAdapterCodeId,
             factoryAddress := .str factoryAddress, multiHopAddress, pairs,
             gaugeOrchestratorAddress, gaugeAdapters, gauges }

end P0

/-! ## Sequencing lemmas: responses drive requests one at a time -/

namespace Script

/-- Delivering further responses only extends the stream of issued requests:
after any list of responses, the requests issued so far are a prefix of the
requests issued with more responses delivered, so each chain call is fully
determined by the responses to the calls before it. -/
theorem runL_prefix (s : Script α) : ∀ rs rs' : List ChainResponse,
    s.runL rs <+: s.runL (rs ++ rs') := by
  induction s with
  | pure a => intro rs rs'; simp [runL]
  | fail e => intro rs rs'; simp [runL]
  | ask p k ih => intro rs rs'; simpa [runL] using ih () rs rs'
  | call req k ih =>
      intro rs rs'
      cases rs with
      | nil =>
          cases rs' with
          | nil => simp
          | cons r t => exact ⟨(k r).runL t, rfl⟩
      | cons r t =>
          obtain ⟨u, hu⟩ := ih r t rs'
          exact ⟨u, by simp [runL, ← hu]⟩

/-- With `rs.length` responses received, at most `rs.length + 1` requests
have been issued: no two chain calls are ever in flight at once. -/
theorem runL_length (s : Script α) : ∀ rs : List ChainResponse,
    (s.runL rs).length ≤ rs.length + 1 := by
  induction s with
  | pure a => intro rs; simp [runL]
  | fail e => intro rs; simp [runL]
  | ask p k ih => intro rs; simpa [runL] using ih () rs
  | call req k ih =>
      intro rs
      cases rs with
      | nil => simp [runL]
      | cons r t =>
          simp only [runL, List.length_cons]
          exact Nat.succ_le_succ (ih r t)

end Script

/-! ## Characterization lemmas for the embedded functions -/

/-- The relation between the response to an `instantiate` call at index `k`
and the value the surrounding `instantiateContract` call returns when it
returns at all: a successful response yields its `contractAddress`, a
success of any other shape yields `undefined` (missing property on
destructuring), and a swallowed base64 rejection without a truthy receipt
`codeId` yields `undefined`. -/
def instResult (f : Nat → ChainResponse) (k : Nat) (v : JsVal) : Prop :=
  (∃ a, f k = .ok (.instantiated a) ∧ v = .str a) ∨
  (∃ val, f k = .ok val ∧ (∀ a, val ≠ .instantiated a) ∧ v = .undefined) ∨
  (∃ e, f k = .error e ∧ strIncludes e.message invalidBase64Msg = true ∧
        (e.responseUploadReceipt = none ∨
          ∃ rc, e.responseUploadReceipt = some rc ∧ rc.codeId = 0) ∧
        v = .undefined)

/-- The outcome of `instantiateContract` as a function of the response to
its single `instantiate` call (proof artifact; related to the embedded
function by `instantiateContract_runT`). -/
def instOutcome : ChainResponse → Except JsError JsVal
  | .ok (.instantiated a) => .ok (.str a)
  | .ok _ => .ok .undefined
  | .error e =>
      if strIncludes e.message invalidBase64Msg then
        match e.responseUploadReceipt with
        | some rc => if rc.codeId ≠ 0 then .error (.referenceError "label") else .ok .undefined
        | none => .ok .undefined
      else .error (.chainError e)

/-- Evaluation equation for `instantiateContract`: it issues exactly one
`instantiate` request and its outcome is `instOutcome` of that call's
response. -/
theorem instantiateContract_runT (w g : String) (cfg : ContractConfig) (cid : JsVal)
    (f : Nat → ChainResponse) (n : Nat) :
    (instantiateContract w g cfg cid).runT f n =
      (instOutcome (f n), [(n, .instantiate w cid cfg.instantiate cfg.label w)]) := by
  rw [instantiateContract, Script.runT_bind]
  simp only [Script.runT_callC]
  rcases hfn : f n with e | val
  · by_cases hmsg : strIncludes e.message invalidBase64Msg
    · rcases hrc : e.responseUploadReceipt with _ | rc
      · simp [instOutcome, hmsg, hrc]
      · by_cases hcz : rc.codeId = 0
        · simp [instOutcome, hmsg, hrc, hcz]
        · simp [instOutcome, hmsg, hrc, hcz, Script.bind_def, Script.bind, Script.jsRefString]
    · simp [instOutcome, hmsg]
  · cases val <;> simp [instOutcome]

/-- Success characterization of `instantiateContract`: a corollary of the
evaluation equation.  (The swallowed-rejection branch holding a truthy
receipt `codeId` never returns: it evaluates the unbound identifier `label`
and throws, so it is absent from `instResult`.) -/
theorem instantiateContract_ok (w g : String) (cfg : ContractConfig) (cid : JsVal)
    (f : Nat → ChainResponse) (n : Nat) (v : JsVal) (tr : List (Nat × Request))
    (h : (instantiateContract w g cfg cid).runT f n = (.ok v, tr)) :
    tr = [(n, .instantiate w cid cfg.instantiate cfg.label w)] ∧ instResult f n v := by
  rw [instantiateContract_runT] at h
  simp only [Prod.mk.injEq] at h
  obtain ⟨hv, htr⟩ := h
  refine ⟨htr.symm, ?_⟩
  rcases hfn : f n with e | val
  · rw [hfn] at hv
    by_cases hmsg : strIncludes e.message invalidBase64Msg
    · rcases hrc : e.responseUploadReceipt with _ | rc
      · simp only [instOutcome, hmsg, hrc, if_true, Except.ok.injEq] at hv
        exact Or.inr (Or.inr ⟨e, hfn, hmsg, Or.inl hrc, hv.symm⟩)
      · by_cases hcz : rc.codeId = 0
        · simp only [instOutcome, hmsg, hrc, hcz, if_true, ne_eq, not_true_eq_false,
            if_false, Except.ok.injEq, ite_false] at hv
          exact Or.inr (Or.inr ⟨e, hfn, hmsg, Or.inr ⟨rc, hrc, hcz⟩, hv.symm⟩)
        · simp [instOutcome, hmsg, hrc, hcz] at hv
    · simp [instOutcome, hmsg] at hv
  · rw [hfn] at hv
    cases val with
    | instantiated a =>
        simp only [instOutcome, Except.ok.injEq] at hv
        exact Or.inl ⟨a, hfn, hv.symm⟩
    | unit =>
        simp only [instOutcome, Except.ok.injEq] at hv
        refine Or.inr (Or.inl ⟨.unit, hfn, ?_, hv.symm⟩)
        intro a hc
        exact Value.noConfusion hc
    | balance x y =>
        simp only [instOutcome, Except.ok.injEq] at hv
        refine Or.inr (Or.inl ⟨.balance x y, hfn, ?_, hv.symm⟩)
        intro a hc
        exact Value.noConfusion hc
    | chainId s =>
        simp only [instOutcome, Except.ok.injEq] at hv
        refine Or.inr (Or.inl ⟨.chainId s, hfn, ?_, hv.symm⟩)
        intro a hc
        exact Value.noConfusion hc
    | upReceipt rc =>
        simp only [instOutcome, Except.ok.injEq] at hv
        refine Or.inr (Or.inl ⟨.upReceipt rc, hfn, ?_, hv.symm⟩)
        intro a hc
        exact Value.noConfusion hc
    | executed r =>
        simp only [instOutcome, Except.ok.injEq] at hv
        refine Or.inr (Or.inl ⟨.executed r, hfn, ?_, hv.symm⟩)
        intro a hc
        exact Value.noConfusion hc

/-- The outcome of `storeContract` as a function of the response to its
single `upload` call (proof artifact; related to the embedded function by
`storeContract_runT`). -/
def storeOutcome : ChainResponse → Except JsError (Option Nat)
  | .ok (.upReceipt rc) => .ok (some rc.codeId)
  | .ok _ => .ok none
  | .error e =>
      if strIncludes e.message invalidBase64Msg then
        match e.responseUploadReceipt with
        | some rc => if rc.codeId ≠ 0 then .ok (some rc.codeId) else .ok none
        | none => .ok none
      else .error (.chainError e)

/-- Evaluation equation for `storeContract`: it issues exactly one `upload`
request and its outcome is `storeOutcome` of that call's response. -/
theorem storeContract_runT (w g label path : String) (f : Nat → ChainResponse) (n : Nat) :
    (storeContract w g label path).runT f n =
      (storeOutcome (f n), [(n, .upload w path label)]) := by
  rw [storeContract, Script.runT_bind]
  simp only [Script.runT_callC]
  rcases hfn : f n with e | val
  · by_cases hmsg : strIncludes e.message invalidBase64Msg
    · rcases hrc : e.responseUploadReceipt with _ | rc
      · simp [storeOutcome, hmsg, hrc]
      · by_cases hcz : rc.codeId = 0 <;> simp [storeOutcome, hmsg, hrc, hcz]
    · simp [storeOutcome, hmsg]
  · cases val <;> simp [storeOutcome]

/-- Evaluation of the `index.js` `connect` when wallet derivation and all
three chain calls succeed: the result is the derived address exactly when
the reported chain id equals the configured one, and the thrown mismatch
error otherwise. -/
theorem Idx.connect_eval_idx (mn : String) (P : PalomaConfig) (d : String → Except JsError String)
    (f : Nat → ChainResponse) (n : Nat) (a : String) (v0 v1 : Value) (cid : String)
    (hd : d mn = .ok a) (h0 : f n = .ok v0) (h1 : f (n + 1) = .ok v1)
    (h2 : f (n + 2) = .ok (.chainId cid)) :
    (Idx.connect mn P d).runT f n =
      ((if cid = P.chainId then .ok a else .error (.jsError Idx.chainIdMismatchMsg)),
       [(n, .connectWithSigner P.rpcEndpoint), (n + 1, .getBalance a P.feeToken),
        (n + 2, .getChainId)]) := by
  have h2' : f (n + 1 + 1) = .ok (.chainId cid) := h2
  simp only [Idx.connect, hd]
  by_cases hc : cid = P.chainId <;>
    simp [Script.runT_bind, h0, h1, h2', chainIdMatches, hc]

/-- Evaluation of the `part_000` `connect` under the same hypotheses. -/
theorem P0.connect_eval_p0 (mn : String) (P : PalomaConfig) (d : String → Except JsError String)
    (f : Nat → ChainResponse) (n : Nat) (a : String) (v0 v1 : Value) (cid : String)
    (hd : d mn = .ok a) (h0 : f n = .ok v0) (h1 : f (n + 1) = .ok v1)
    (h2 : f (n + 2) = .ok (.chainId cid)) :
    (P0.connect mn P d).runT f n =
      ((if cid = P.chainId then .ok a else .error (.jsError P0.chainIdMismatchMsg)),
       [(n, .connectWithSigner P.rpcEndpoint), (n + 1, .getBalance a P.feeToken),
        (n + 2, .getChainId)]) := by
  have h2' : f (n + 1 + 1) = .ok (.chainId cid) := h2
  simp only [P0.connect, hd]
  by_cases hc : cid = P.chainId <;>
    simp [Script.runT_bind, h0, h1, h2', chainIdMatches, hc]

/-- The full request trace of a successful pass of the three chain calls of
`connect`, starting at call index `n` (proof artifact). -/
def connectTrace (P : PalomaConfig) (a : String) (n : Nat) : List (Nat × Request) :=
  [(n, .connectWithSigner P.rpcEndpoint), (n + 1, .getBalance a P.feeToken),
   (n + 2, .getChainId)]

/-- Total evaluation equation for the `part_000` `connect`, by cases on the
derivation result and the three chain responses. -/
theorem P0.connect_eval_eq_p0 (mn : String) (P : PalomaConfig)
    (d : String → Except JsError String) (f : Nat → ChainResponse) (n : Nat) :
    (P0.connect mn P d).runT f n =
      match d mn with
      | .error e => (.error e, [])
      | .ok addr =>
        match f n with
        | .error e => (.error (.chainError e), (connectTrace P addr n).take 1)
        | .ok _ =>
          match f (n + 1) with
          | .error e => (.error (.chainError e), (connectTrace P addr n).take 2)
          | .ok _ =>
            match f (n + 2) with
            | .error e => (.error (.chainError e), connectTrace P addr n)
            | .ok v =>
                ((if chainIdMatches v P.chainId then .ok addr
                  else .error (.jsError P0.chainIdMismatchMsg)), connectTrace P addr n) := by
  rcases hd : d mn with e | addr
  · simp [P0.connect, hd]
  · rcases h0 : f n with e0 | v0
    · simp [P0.connect, hd, h0, Script.runT_bind, connectTrace]
    · rcases h1 : f (n + 1) with e1 | v1
      · simp [P0.connect, hd, h0, h1, Script.runT_bind, connectTrace]
      · rcases h2 : f (n + 2) with e2 | v2
        · have h2' : f (n + 1 + 1) = .error e2 := h2
          simp [P0.connect, hd, h0, h1, h2, h2', Script.runT_bind, connectTrace]
        · have h2' : f (n + 1 + 1) = .ok v2 := h2
          by_cases hc : chainIdMatches v2 P.chainId <;>
            simp [P0.connect, hd, h0, h1, h2, h2', hc, Script.runT_bind, connectTrace]

/-- Success characterization of the `part_000` `connect`: it implies that
derivation succeeded with the returned address, the connection and balance
calls succeeded, and the reported chain id equals the configured one. -/
theorem P0.connect_ok (mn : String) (P : PalomaConfig) (d : String → Except JsError String)
    (f : Nat → ChainResponse) (n : Nat) (a : String) (tr : List (Nat × Request))
    (h : (P0.connect mn P d).runT f n = (.ok a, tr)) :
    d mn = .ok a ∧ (∃ v0, f n = .ok v0) ∧ (∃ v1, f (n + 1) = .ok v1) ∧
      f (n + 2) = .ok (.chainId P.chainId) ∧ tr = connectTrace P a n := by
  rw [P0.connect_eval_eq_p0] at h
  rcases hd : d mn with e | addr <;> rw [hd] at h
  · simp at h
  · rcases h0 : f n with e0 | v0 <;> rw [h0] at h
    · simp at h
    · rcases h1 : f (n + 1) with e1 | v1 <;> rw [h1] at h
      · simp at h
      · rcases h2 : f (n + 2) with e2 | v2 <;> rw [h2] at h
        · simp at h
        · cases v2 with
          | chainId s =>
              by_cases hc : s == P.chainId
              · simp only [chainIdMatches, hc, if_true, Prod.mk.injEq] at h
                obtain ⟨ha, htr⟩ := h
                have haddr : addr = a := by simpa using ha
                subst haddr
                refine ⟨rfl, ⟨v0, rfl⟩, ⟨v1, rfl⟩, ?_, htr.symm⟩
                have hs : s = P.chainId := by simpa using hc
                rw [hs]
              · simp [chainIdMatches, hc] at h
          | unit => simp [chainIdMatches] at h
          | balance x y => simp [chainIdMatches] at h
          | upReceipt rc => simp [chainIdMatches] at h
          | instantiated x => simp [chainIdMatches] at h
          | executed r => simp [chainIdMatches] at h

/-- The `execute` request trace of `createGauges` over `msgs`, starting at
call index `n`: one call per message, all against the orchestrator address. -/
theorem createGauges_ok (w g : String) (msgs : List GaugeMsg) (orch : JsVal)
    (f : Nat → ChainResponse) (n : Nat) (gs : List GaugeInfo) (tr : List (Nat × Request))
    (h : (createGauges w g msgs orch).runT f n = (.ok gs, tr)) :
    tr = (List.range msgs.length).map
      (fun i => (n + i, Request.execute w orch ((msgs.getD i default).toMsg))) ∧
    gs.length = msgs.length := by
  induction msgs generalizing n gs tr with
  | nil =>
      simp only [createGauges] at h
      simp only [Script.runT_pure_monadic, Prod.mk.injEq] at h
      obtain ⟨h1, h2⟩ := h
      constructor
      · simp [h2.symm]
      · cases h1; simp
  | cons m rest ih =>
      simp only [createGauges] at h
      rw [Script.runT_bind] at h
      simp only [Script.runT_callC, List.length_singleton] at h
      rcases hfn : f n with e | val <;> simp only [hfn] at h
      · simp at h
      · cases val with
        | executed result =>
            rcases hl : result.logs.head? with _ | log0 <;> simp only [hl] at h
            · simp at h
            · rcases he : log0.events.find? (fun e => e.type == "wasm") with _ | ev <;>
                simp only [he] at h
              · simp at h
              · rcases ha : ev.attributes.find? (fun a => a.key == "_contract_address")
                  with _ | ga <;> simp only [ha] at h
                · simp at h
                · rw [Script.runT_bind] at h
                  rcases hrec : (createGauges w g rest orch).runT f (n + 1) with ⟨rres, rtr⟩
                  rw [hrec] at h
                  cases rres with
                  | error e => simp at h
                  | ok gs2 =>
                      simp only [Script.runT_pure_monadic, Prod.mk.injEq,
                        List.append_nil, List.length_singleton] at h
                      obtain ⟨h1, h2⟩ := h
                      obtain ⟨htr, hlen⟩ := ih (n + 1) gs2 rtr hrec
                      constructor
                      · rw [← h2, htr]
                        simp only [List.length_cons, List.range_succ_eq_map,
                          List.map_cons, List.map_map, Nat.add_zero, List.getD_cons_zero,
                          List.singleton_append, List.cons.injEq]
                        refine ⟨trivial, ?_⟩
                        apply List.map_congr_left
                        intro i hi
                        simp [Function.comp, List.getD_cons_succ, Nat.add_comm,
                          Nat.add_left_comm, Nat.add_assoc]
                      · cases h1
                        simp [hlen]
        | unit => simp at h
        | balance x y => simp at h
        | chainId s => simp at h
        | upReceipt rc => simp at h
        | instantiated x => simp at h

/-- The `instantiate` request trace of `instantiateGaugeAdapters`: one call
per adapter configuration. -/
theorem instantiateGaugeAdapters_ok (w g : String) (cid : JsVal) (cfgs : List ContractConfig)
    (f : Nat → ChainResponse) (n : Nat) (ads : List Adapter) (tr : List (Nat × Request))
    (h : (instantiateGaugeAdapters w g cid cfgs).runT f n = (.ok ads, tr)) :
    tr = (List.range cfgs.length).map
      (fun i => (n + i, Request.instantiate w cid (cfgs.getD i default).instantiate
                   (cfgs.getD i default).label w)) ∧
    ads.length = cfgs.length := by
  induction cfgs generalizing n ads tr with
  | nil =>
      simp only [instantiateGaugeAdapters] at h
      simp only [Script.runT_pure_monadic, Prod.mk.injEq] at h
      obtain ⟨h1, h2⟩ := h
      constructor
      · simp [h2.symm]
      · cases h1; simp
  | cons cfg rest ih =>
      simp only [instantiateGaugeAdapters] at h
      rw [Script.runT_bind] at h
      simp only [Script.runT_callC, List.length_singleton] at h
      rcases hfn : f n with e | val <;> simp only [hfn] at h
      · simp at h
      · rw [Script.runT_bind] at h
        rcases hrec : (instantiateGaugeAdapters w g cid rest).runT f (n + 1) with ⟨rres, rtr⟩
        rw [hrec] at h
        cases rres with
        | error e => simp at h
        | ok ads2 =>
            simp only [Script.runT_pure_monadic, Prod.mk.injEq, List.append_nil,
              List.length_singleton] at h
            obtain ⟨h1, h2⟩ := h
            obtain ⟨htr, hlen⟩ := ih (n + 1) ads2 rtr hrec
            constructor
            · rw [← h2, htr]
              simp only [List.length_cons, List.range_succ_eq_map, List.map_cons,
                List.map_map, Nat.add_zero, List.getD_cons_zero, List.singleton_append,
                List.cons.injEq]
              refine ⟨trivial, ?_⟩
              apply List.map_congr_left
              intro i hi
              simp [Function.comp, List.getD_cons_succ, Nat.add_comm, Nat.add_left_comm,
                Nat.add_assoc]
            · cases h1
              simp [hlen]

/-- All entries the `index.js` pair loop appends for one execution result:
one per `wasm`-typed event (after `trim`) carrying both the `pair` and the
`pair_contract_addr` attributes (proof artifact). -/
def Idx.pairsOfResult (result : ExecResult) : List PairInfo :=
  (result.events.filter (fun e => jsTrim e.type == "wasm")).filterMap Idx.pairOfEvent

/-- The entry the `part_000` pair loop appends for one execution result: the
`pair` and `pair_contract_addr` attributes of the first `wasm` event of
`logs[0]`, when all of these exist (proof artifact). -/
def P0.pairOfResult (result : ExecResult) : Option PairInfo :=
  match result.logs.head? with
  | none => none
  | some log0 =>
    match log0.events.find? (fun e => e.type == "wasm") with
    | none => none
    | some ev =>
      match ev.attributes.find? (fun a => a.key == "pair"),
            ev.attributes.find? (fun a => a.key == "pair_contract_addr") with
      | some pairName, some pairAddress => some ⟨pairName.value, pairAddress.value⟩
      | _, _ => none

/-- Success characterization of the `index.js` pair loop: one `execute`
request per `create_pairs` message, all against the factory address; every
response is an execution result with at least one `wasm`-typed event (after
`trim`); and the returned list concatenates, per execution in order, one
entry per `wasm` event carrying both attributes. -/
theorem Idx.createPairsLoop_ok_idx (w : String) (fa : JsVal) (msgs : List Msg)
    (f : Nat → ChainResponse) (n : Nat) (ps : List PairInfo) (tr : List (Nat × Request))
    (h : (Idx.createPairsLoop w fa msgs).runT f n = (.ok ps, tr)) :
    ∃ ress : List ExecResult,
      ress.length = msgs.length ∧
      tr = (List.range msgs.length).map
        (fun i => (n + i, Request.execute w fa (msgs.getD i default))) ∧
      (∀ i, i < msgs.length → f (n + i) = .ok (.executed (ress.getD i default))) ∧
      (∀ res ∈ ress, (res.events.filter (fun e => jsTrim e.type == "wasm")).length ≠ 0) ∧
      ps = (ress.map Idx.pairsOfResult).flatten := by
  induction msgs generalizing n ps tr with
  | nil =>
      simp only [Idx.createPairsLoop] at h
      simp only [Script.runT_pure_monadic, Prod.mk.injEq] at h
      obtain ⟨h1, h2⟩ := h
      refine ⟨[], by simp, by simp [h2.symm], by simp, by simp, by
        cases h1; simp⟩
  | cons m rest ih =>
      simp only [Idx.createPairsLoop] at h
      rw [Script.runT_bind] at h
      simp only [Script.runT_callC, List.length_singleton] at h
      rcases hfn : f n with e | val <;> simp only [hfn] at h
      · simp at h
      · cases val with
        | executed result =>
            by_cases hwe : (result.events.filter (fun e => jsTrim e.type == "wasm")).length = 0
            · simp [hwe] at h
            · simp only [hwe, ite_false] at h
              rw [Script.runT_bind] at h
              rcases hrec : (Idx.createPairsLoop w fa rest).runT f (n + 1) with ⟨rres, rtr⟩
              rw [hrec] at h
              cases rres with
              | error e => simp at h
              | ok ps2 =>
                  simp only [Script.runT_pure_monadic, Prod.mk.injEq, List.append_nil,
                    List.length_singleton] at h
                  obtain ⟨h1, h2⟩ := h
                  obtain ⟨ress2, hlen, htr, hresp, hwasm, hps⟩ := ih (n + 1) ps2 rtr hrec
                  refine ⟨result :: ress2, by simp [hlen], ?_, ?_, ?_, ?_⟩
                  · rw [← h2, htr]
                    simp only [List.length_cons, List.range_succ_eq_map, List.map_cons,
                      List.map_map, Nat.add_zero, List.getD_cons_zero,
                      List.singleton_append, List.cons.injEq]
                    refine ⟨trivial, ?_⟩
                    apply List.map_congr_left
                    intro i hi
                    simp [Function.comp, List.getD_cons_succ, Nat.add_comm,
                      Nat.add_left_comm, Nat.add_assoc]
                  · intro i hi
                    cases i with
                    | zero => simpa using hfn
                    | succ j =>
                        have hj : j < rest.length := by
                          simpa [Nat.succ_lt_succ_iff] using hi
                        have := hresp j hj
                        have hidx : n + 1 + j = n + (j + 1) := by omega
                        rw [hidx] at this
                        simpa [List.getD_cons_succ] using this
                  · intro res hres
                    rcases List.mem_cons.mp hres with hres | hres
                    · subst hres; exact hwe
                    · exact hwasm res hres
                  · cases h1
                    simp [Idx.pairsOfResult, hps]
        | unit => simp at h
        | balance x y => simp at h
        | chainId s => simp at h
        | upReceipt rc => simp at h
        | instantiated x => simp at h

/-- Success characterization of the `part_000` pair loop: one `execute`
request per `create_pairs` message, all against the factory address; each
returned entry is extracted by `P0.pairOfResult` from the corresponding
execution result in order. -/
theorem P0.createPairsLoop_ok_p0 (w : String) (fa : JsVal) (msgs : List Msg)
    (f : Nat → ChainResponse) (n : Nat) (ps : List PairInfo) (tr : List (Nat × Request))
    (h : (P0.createPairsLoop w fa msgs).runT f n = (.ok ps, tr)) :
    ∃ ress : List ExecResult,
      ress.length = msgs.length ∧
      tr = (List.range msgs.length).map
        (fun i => (n + i, Request.execute w fa (msgs.getD i default))) ∧
      (∀ i, i < msgs.length → f (n + i) = .ok (.executed (ress.getD i default))) ∧
      List.Forall₂ (fun res p => P0.pairOfResult res = some p) ress ps := by
  induction msgs generalizing n ps tr with
  | nil =>
      simp only [P0.createPairsLoop] at h
      simp only [Script.runT_pure_monadic, Prod.mk.injEq] at h
      obtain ⟨h1, h2⟩ := h
      refine ⟨[], by simp, by simp [h2.symm], by simp, by
        cases h1; simp⟩
  | cons m rest ih =>
      simp only [P0.createPairsLoop] at h
      rw [Script.runT_bind] at h
      simp only [Script.runT_callC, List.length_singleton] at h
      rcases hfn : f n with e | val <;> simp only [hfn] at h
      · simp at h
      · cases val with
        | executed result =>
            rcases hl : result.logs.head? with _ | log0 <;> simp only [hl] at h
            · simp at h
            · rcases he : log0.events.find? (fun e => e.type == "wasm") with _ | ev <;>
                simp only [he] at h
              · simp at h
              · rcases hp : ev.attributes.find? (fun a => a.key == "pair") with _ | pn <;>
                  simp only [hp] at h
                · simp at h
                · rcases hpa : ev.attributes.find? (fun a => a.key == "pair_contract_addr")
                    with _ | pa <;> simp only [hpa] at h
                  · simp at h
                  · rw [Script.runT_bind] at h
                    rcases hrec : (P0.createPairsLoop w fa rest).runT f (n + 1) with ⟨rres, rtr⟩
                    rw [hrec] at h
                    cases rres with
                    | error e => simp at h
                    | ok ps2 =>
                        simp only [Script.runT_pure_monadic, Prod.mk.injEq, List.append_nil,
                          List.length_singleton] at h
                        obtain ⟨h1, h2⟩ := h
                        obtain ⟨ress2, hlen, htr, hresp, hfa⟩ := ih (n + 1) ps2 rtr hrec
                        refine ⟨result :: ress2, by simp [hlen], ?_, ?_, ?_⟩
                        · rw [← h2, htr]
                          simp only [List.length_cons, List.range_succ_eq_map, List.map_cons,
                            List.map_map, Nat.add_zero, List.getD_cons_zero,
                            List.singleton_append, List.cons.injEq]
                          refine ⟨trivial, ?_⟩
                          apply List.map_congr_left
                          intro i hi
                          simp [Function.comp, List.getD_cons_succ, Nat.add_comm,
                            Nat.add_left_comm, Nat.add_assoc]
                        · intro i hi
                          cases i with
                          | zero => simpa using hfn
                          | succ j =>
                              have hj : j < rest.length := by
                                simpa [Nat.succ_lt_succ_iff] using hi
                              have := hresp j hj
                              have hidx : n + 1 + j = n + (j + 1) := by omega
                              rw [hidx] at this
                              simpa [List.getD_cons_succ] using this
                        · cases h1
                          refine List.Forall₂.cons ?_ hfa
                          simp [P0.pairOfResult, hl, he, hp, hpa]
        | unit => simp at h
        | balance x y => simp at h
        | chainId s => simp at h
        | upReceipt rc => simp at h
        | instantiated x => simp at h

/-- The length of a completed `connect` trace. -/
@[simp] theorem connectTrace_length (P : PalomaConfig) (a : String) (n : Nat) :
    (connectTrace P a n).length = 3 := rfl

/-- The `index.js` `main` never completes: whatever the environment, the
derivation function, the configuration and the chain responses, its run
never produces a report (so the `fs.writeFileSync` of `result.json` is
unreachable). -/
theorem Idx.main_no_ok (em : Option String) (d : String → Except JsError String)
    (P : PalomaConfig) (F : FactoryConfig) (M : ContractConfig)
    (f : Nat → ChainResponse) (r : Idx.Report) (tr : List (Nat × Request)) :
    (Idx.main em d P F M).runT f 0 ≠ (.ok r, tr) := by
  intro h
  rcases hg : getMnemonic em with e | mn
  · simp [Idx.main, hg] at h
  · simp only [Idx.main, hg] at h
    rw [Script.runT_bind] at h
    rcases hc : (Idx.connect mn P d).runT f 0 with ⟨cres, ctr⟩
    rw [hc] at h
    cases cres with
    | error e => simp at h
    | ok address =>
        dsimp only at h
        rw [Script.runT_bind] at h
        simp only [Script.runT_askC] at h
        rw [Script.runT_bind] at h
        simp [Script.jsRefString] at h

/-- When `getMnemonic` and wallet derivation succeed and the three calls of
`connect` succeed with the configured chain id, the `index.js` `main` stops
with `ReferenceError` on the unbound identifier `wallet` (first evaluated
inside `cw20InstantiateMsg`), right after the three `connect` calls. -/
theorem Idx.main_refError (em : Option String) (d : String → Except JsError String)
    (P : PalomaConfig) (F : FactoryConfig) (M : ContractConfig)
    (f : Nat → ChainResponse) (mn a : String) (v0 v1 : Value)
    (hm : em = some mn) (hlen : 48 ≤ mn.length) (hd : d mn = .ok a)
    (h0 : f 0 = .ok v0) (h1 : f 1 = .ok v1) (h2 : f 2 = .ok (.chainId P.chainId)) :
    (Idx.main em d P F M).runT f 0 =
      (.error (.referenceError "wallet"), connectTrace P a 0) := by
  have hg : getMnemonic em = .ok mn := by
    rw [hm]
    simp only [getMnemonic]
    rw [if_neg (by omega)]
  have hconn := Idx.connect_eval_idx mn P d f 0 a v0 v1 P.chainId hd h0 h1 h2
  rw [if_pos rfl] at hconn
  simp only [Idx.main, hg]
  rw [Script.runT_bind]
  rw [show (Idx.connect mn P d).runT f 0 = (.ok a, connectTrace P a 0) from hconn]
  dsimp only
  rw [Script.runT_bind]
  simp only [Script.runT_askC]
  rw [Script.runT_bind]
  simp [Script.jsRefString, connectTrace]

/-- `instResult` holds between the response at index `k` and any value that
`instOutcome` returns for it. -/
theorem instOutcome_ok (f : Nat → ChainResponse) (k : Nat) (v : JsVal)
    (hv : instOutcome (f k) = .ok v) : instResult f k v := by
  rcases hfn : f k with e | val
  · rw [hfn] at hv
    by_cases hmsg : strIncludes e.message invalidBase64Msg
    · rcases hrc : e.responseUploadReceipt with _ | rc
      · simp only [instOutcome, hmsg, hrc, if_true, Except.ok.injEq] at hv
        exact Or.inr (Or.inr ⟨e, hfn, hmsg, Or.inl hrc, hv.symm⟩)
      · by_cases hcz : rc.codeId = 0
        · simp only [instOutcome, hmsg, hrc, hcz, if_true, ne_eq, not_true_eq_false,
            if_false, Except.ok.injEq, ite_false] at hv
          exact Or.inr (Or.inr ⟨e, hfn, hmsg, Or.inr ⟨rc, hrc, hcz⟩, hv.symm⟩)
        · simp [instOutcome, hmsg, hrc, hcz] at hv
    · simp [instOutcome, hmsg] at hv
  · rw [hfn] at hv
    cases val with
    | instantiated a =>
        simp only [instOutcome, Except.ok.injEq] at hv
        exact Or.inl ⟨a, hfn, hv.symm⟩
    | unit =>
        simp only [instOutcome, Except.ok.injEq] at hv
        exact Or.inr (Or.inl ⟨.unit, hfn, fun a hc => Value.noConfusion hc, hv.symm⟩)
    | balance x y =>
        simp only [instOutcome, Except.ok.injEq] at hv
        exact Or.inr (Or.inl ⟨.balance x y, hfn, fun a hc => Value.noConfusion hc, hv.symm⟩)
    | chainId s =>
        simp only [instOutcome, Except.ok.injEq] at hv
        exact Or.inr (Or.inl ⟨.chainId s, hfn, fun a hc => Value.noConfusion hc, hv.symm⟩)
    | upReceipt rc =>
        simp only [instOutcome, Except.ok.injEq] at hv
        exact Or.inr (Or.inl ⟨.upReceipt rc, hfn, fun a hc => Value.noConfusion hc, hv.symm⟩)
    | executed r =>
        simp only [instOutcome, Except.ok.injEq] at hv
        exact Or.inr (Or.inl ⟨.executed r, hfn, fun a hc => Value.noConfusion hc, hv.symm⟩)

/-- Master success characterization of the `part_000` `main`: a completed
run decomposes into the connect phase, the multi-hop instantiation at call
index 3, the pair-creation loop from index 4, the orchestrator
instantiation, the adapter loop, and the gauge loop, and the written report
is built exactly from the hard-coded code ids, the hard-coded factory
address, and the values these phases produced. -/
theorem P0.main_ok (em : Option String) (d : String → Except JsError String)
    (P : PalomaConfig) (F : FactoryConfig) (M : ContractConfig) (G : GaugesConfig)
    (f : Nat → ChainResponse) (r : P0.Report) (tr : List (Nat × Request))
    (h : (P0.main em d P F M G).runT f 0 = (.ok r, tr)) :
    ∃ (mn address : String) (vMH vOr : JsVal) (ps : List PairInfo)
      (ads : List Adapter) (gs : List GaugeInfo)
      (trP trA trG : List (Nat × Request)),
      getMnemonic em = .ok mn ∧
      d mn = .ok address ∧
      (∃ v0, f 0 = .ok v0) ∧ (∃ v1, f 1 = .ok v1) ∧
      f 2 = .ok (.chainId P.chainId) ∧
      instResult f 3 vMH ∧
      (P0.createPairsLoop address (.str P0.factoryAddressConst) F.create_pairs).runT f 4
        = (.ok ps, trP) ∧
      instResult f (4 + trP.length) vOr ∧
      (instantiateGaugeAdapters address P.gasPrice (.num 12) G.adapters).runT f
        (4 + trP.length + 1) = (.ok ads, trA) ∧
      (createGauges address P.gasPrice G.gauges vOr).runT f
        (4 + trP.length + 1 + trA.length) = (.ok gs, trG) ∧
      r = { tokenCodeId := 6, pairCodeId := 7, pairStableCodeId := 8, stakeCodeId := 9,
            multiHopCodeId := 10, factoryCodeId := 5, gaugeOrchestratorCodeId := 11,
            gaugeAdapterCodeId := 12, factoryAddress := .str P0.factoryAddressConst,
            multiHopAddress := vMH, pairs := ps, gaugeOrchestratorAddress := vOr,
            gaugeAdapters := ads, gauges := gs } ∧
      tr = connectTrace P address 0
             ++ [(3, .instantiate address (.num 10) M.instantiate M.label address)]
             ++ trP
             ++ [(4 + trP.length, .instantiate address (.num 11)
                    G.orchestrator.instantiate G.orchestrator.label address)]
             ++ trA ++ trG := by
  rcases hg : getMnemonic em with e | mn
  · simp [P0.main, hg] at h
  · simp only [P0.main, hg] at h
    rw [Script.runT_bind] at h
    rcases hc : (P0.connect mn P d).runT f 0 with ⟨cres, ctr⟩
    rw [hc] at h
    cases cres with
    | error e => simp at h
    | ok address =>
        dsimp only at h
        obtain ⟨hd, hv0, hv1, h2cid, hctr⟩ := P0.connect_ok mn P d f 0 address ctr hc
        subst hctr
        simp only [connectTrace_length, Nat.zero_add] at h
        rw [Script.runT_bind] at h
        simp only [Script.runT_askC] at h
        rw [Script.runT_bind] at h
        simp only [Script.runT_askC] at h
        simp only [List.length_nil, Nat.add_zero, List.append_nil] at h
        rw [Script.runT_bind, instantiateContract_runT] at h
        rcases hio : instOutcome (f 3) with e | vMH <;> rw [hio] at h
        · simp at h
        · dsimp only at h
          simp only [List.length_singleton] at h
          simp only [P0.createPairsAndDistributionFlows] at h
          rw [Script.runT_bind] at h
          rcases hP : (P0.createPairsLoop address (.str P0.factoryAddressConst)
              F.create_pairs).runT f (3 + 1) with ⟨pres, trP⟩
          rw [hP] at h
          cases pres with
          | error e => simp at h
          | ok ps =>
              dsimp only at h
              rw [Script.runT_bind, instantiateContract_runT] at h
              rcases hio2 : instOutcome (f (3 + 1 + trP.length)) with e | vOr <;>
                rw [hio2] at h
              · simp at h
              · dsimp only at h
                simp only [List.length_singleton] at h
                rw [Script.runT_bind] at h
                rcases hA : (instantiateGaugeAdapters address P.gasPrice (.num 12)
                    G.adapters).runT f (3 + 1 + trP.length + 1) with ⟨ares, trA⟩
                rw [hA] at h
                cases ares with
                | error e => simp at h
                | ok ads =>
                    dsimp only at h
                    rw [Script.runT_bind] at h
                    simp only [Script.runT_askC] at h
                    simp only [List.length_nil, Nat.add_zero, List.append_nil] at h
                    rw [Script.runT_bind] at h
                    rcases hG : (createGauges address P.gasPrice G.gauges vOr).runT f
                        (3 + 1 + trP.length + 1 + trA.length) with ⟨gres, trG⟩
                    rw [hG] at h
                    cases gres with
                    | error e => simp at h
                    | ok gs =>
                        dsimp only at h
                        simp only [Script.runT_pure_monadic, Prod.mk.injEq,
                          List.append_nil] at h
                        obtain ⟨h1, h2⟩ := h
                        refine ⟨mn, address, vMH, vOr, ps, ads, gs, trP, trA, trG,
                          rfl, hd, hv0, hv1, h2cid,
                          instOutcome_ok f 3 vMH hio, ?_, ?_, ?_, ?_, ?_, ?_⟩
                        · simpa using hP
                        · have : 3 + 1 + trP.length = 4 + trP.length := by omega
                          rw [this] at hio2
                          exact instOutcome_ok f (4 + trP.length) vOr hio2
                        · have : 3 + 1 + trP.length + 1 = 4 + trP.length + 1 := by omega
                          rw [this] at hA
                          exact hA
                        · have : 3 + 1 + trP.length + 1 + trA.length
                              = 4 + trP.length + 1 + trA.length := by omega
                          rw [this] at hG
                          exact hG
                        · cases h1
                          rfl
                        · rw [← h2]
                          simp [connectTrace, List.append_assoc]

/-! ## A concrete environment used by witnesses and counterexamples -/

namespace Wit

def P : PalomaConfig := ⟨"paloma", "0.25ugrain", "ugrain", "rpc", "paloma-testnet-1"⟩

def F : FactoryConfig := ⟨"factory", .raw "fi", [.raw "cp1"]⟩

def M : ContractConfig := ⟨"multihop", .raw "mh"⟩

def G : GaugesConfig := ⟨⟨"orch", .raw "o"⟩, [⟨"ad1", .raw "a1"⟩], [⟨"g1", "gp"⟩]⟩

def mn : String := "012345678901234567890123456789012345678901234567"

def em : Option String := some mn

def d : String → Except JsError String := fun _ => .ok "addr0"

def wasmEv : Event := ⟨"wasm", [⟨"pair", "P1"⟩, ⟨"pair_contract_addr", "PA1"⟩]⟩

def res1 : ExecResult := ⟨[⟨[wasmEv]⟩], [wasmEv]⟩

def gaugeEv : Event := ⟨"wasm", [⟨"_contract_address", "GA1"⟩]⟩

def res2 : ExecResult := ⟨[⟨[gaugeEv]⟩], [gaugeEv]⟩

def resps : List ChainResponse :=
  [.ok .unit, .ok (.balance "5" "ugrain"), .ok (.chainId "paloma-testnet-1"),
   .ok (.instantiated "mhAddr"), .ok (.executed res1), .ok (.instantiated "orchAddr"),
   .ok (.instantiated "adAddr"), .ok (.executed res2)]

def f : Nat → ChainResponse := fun n => resps.getD n (.ok .unit)

/-- The report produced by `P0.main` under this environment. -/
def rExp : P0.Report := ⟨6, 7, 8, 9, 10, 5, 11, 12, .str P0.factoryAddressConst, .str "mhAddr",
  [⟨"P1", "PA1"⟩], .str "orchAddr", [⟨"ad1", .str "adAddr"⟩], [⟨"g1", "GA1"⟩]⟩

/-- The request trace produced by `P0.main` under this environment. -/
def trExp : List (Nat × Request) :=
  [(0, .connectWithSigner "rpc"), (1, .getBalance "addr0" "ugrain"), (2, .getChainId),
   (3, .instantiate "addr0" (.num 10) (.raw "mh") "multihop" "addr0"),
   (4, .execute "addr0" (.str P0.factoryAddressConst) (.raw "cp1")),
   (5, .instantiate "addr0" (.num 11) (.raw "o") "orch" "addr0"),
   (6, .instantiate "addr0" (.num 12) (.raw "a1") "ad1" "addr0"),
   (7, .execute "addr0" (.str "orchAddr") (.createGauge "g1" "gp"))]

/-- Concrete evaluation of a full successful run of the `part_000` `main`. -/
theorem mainP0_run : (P0.main em d P F M G).runT f 0 = (.ok rExp, trExp) := by rfl

end Wit

/-! ## Claims -/

/-- C10: `getMnemonic` returns the value of the `MNEMONIC` environment
variable exactly when that variable is set to a string of length at least
48; otherwise it throws `Error("Must set MNEMONIC to a 12 word phrase")`.
In particular any string of length at least 48 is accepted, regardless of
whether it is a valid 12-word phrase: the word count is never checked. -/
theorem C10_getMnemonic_length_gate (m : Option String) (s : String) :
    (getMnemonic m = .ok s ↔ m = some s ∧ 48 ≤ s.length) ∧
    (getMnemonic m = .error (.jsError mnemonicErrMsg) ↔
      ∀ t, m = some t → t.length < 48) := by
  cases m with
  | none =>
      constructor
      · simp [getMnemonic]
      · simp [getMnemonic]
  | some t =>
      by_cases hl : t.length < 48
      · constructor
        · simp only [getMnemonic, if_pos hl]
          constructor
          · intro hok
            exact absurd hok (by simp)
          · rintro ⟨hts, hlen⟩
            cases hts
            omega
        · simp only [getMnemonic, if_pos hl]
          constructor
          · intro _ t' ht'
            cases ht'
            exact hl
          · intro _
            trivial
      · constructor
        · simp only [getMnemonic, if_neg hl]
          constructor
          · intro hok
            cases hok
            exact ⟨rfl, by omega⟩
          · rintro ⟨hts, hlen⟩
            cases hts
            rfl
        · simp only [getMnemonic, if_neg hl]
          constructor
          · intro hbad
            exact absurd hbad (by simp)
          · intro hall
            exact absurd (hall t rfl) (by omega)

/-- C5: in both variants, given that wallet derivation succeeds and the
`connectWithSigner`, balance and chain-id calls all succeed with the chain
reporting id `cid`, `connect` throws exactly when `cid` differs from the
configured `chainId` and otherwise returns the derived first-account
address (the signing client itself is the ambient oracle). -/
theorem C5_connect_chain_id_check (mn : String) (P : PalomaConfig)
    (d : String → Except JsError String) (f : Nat → ChainResponse) (n : Nat)
    (a : String) (v0 v1 : Value) (cid : String)
    (hd : d mn = .ok a) (h0 : f n = .ok v0) (h1 : f (n + 1) = .ok v1)
    (h2 : f (n + 2) = .ok (.chainId cid)) :
    ((Idx.connect mn P d).runT f n).1 =
      (if cid = P.chainId then .ok a else .error (.jsError Idx.chainIdMismatchMsg)) ∧
    ((P0.connect mn P d).runT f n).1 =
      (if cid = P.chainId then .ok a else .error (.jsError P0.chainIdMismatchMsg)) := by
  rw [Idx.connect_eval_idx mn P d f n a v0 v1 cid hd h0 h1 h2,
      P0.connect_eval_p0 mn P d f n a v0 v1 cid hd h0 h1 h2]
  exact ⟨rfl, rfl⟩

/-- Witness for C5 at the concrete environment (matching chain id). -/
theorem C5_connect_chain_id_check_witness :
    (Wit.d Wit.mn = .ok "addr0" ∧ Wit.f 0 = .ok .unit ∧
     Wit.f 1 = .ok (.balance "5" "ugrain") ∧
     Wit.f 2 = .ok (.chainId "paloma-testnet-1")) ∧
    (((Idx.connect Wit.mn Wit.P Wit.d).runT Wit.f 0).1 =
      (if "paloma-testnet-1" = Wit.P.chainId then .ok "addr0"
       else .error (.jsError Idx.chainIdMismatchMsg)) ∧
     ((P0.connect Wit.mn Wit.P Wit.d).runT Wit.f 0).1 =
      (if "paloma-testnet-1" = Wit.P.chainId then .ok "addr0"
       else .error (.jsError P0.chainIdMismatchMsg))) :=
  ⟨⟨rfl, rfl, rfl, rfl⟩,
   C5_connect_chain_id_check Wit.mn Wit.P Wit.d Wit.f 0 "addr0" .unit
     (.balance "5" "ugrain") "paloma-testnet-1" rfl rfl rfl rfl⟩

/-- A rejection carrying the swallowed base64 message and a receipt with
code id 7 (for C4). -/
def C4err : ChainError :=
  ⟨"rpc error: Invalid string. Length must be a multiple of 4", some ⟨7⟩⟩

/-- A rejection with an unrelated message and the same receipt (for C4). -/
def C4errOther : ChainError := ⟨"out of gas", some ⟨7⟩⟩

def C4f : Nat → ChainResponse := fun _ => .error C4err

def C4fOther : Nat → ChainResponse := fun _ => .error C4errOther

/-- C4 (evaluation at the failing input): for a rejection whose message
contains "Invalid string. Length must be a multiple of 4" and whose
`error.response.uploadReceipt.codeId` is 7, `storeContract` swallows the
error and returns the receipt code id exactly as the claim states — but
`instantiateContract` throws `ReferenceError` on the unbound identifier
`label` (evaluated in its `console.info(label + ...)`) instead of returning
the code id.  Rejections whose message lacks the substring are re-thrown
unchanged by both functions. -/
theorem C4_swallowed_branch_behaviour :
    ((storeContract "w" "1ug" "token" "/contracts/cw20_base.wasm").runT C4f 0).1
        = .ok (some 7) ∧
    ((instantiateContract "w" "1ug" ⟨"lbl", .raw "m"⟩ (.num 6)).runT C4f 0).1
        = .error (.referenceError "label") ∧
    ((storeContract "w" "1ug" "token" "/contracts/cw20_base.wasm").runT C4fOther 0).1
        = .error (.chainError C4errOther) ∧
    ((instantiateContract "w" "1ug" ⟨"lbl", .raw "m"⟩ (.num 6)).runT C4fOther 0).1
        = .error (.chainError C4errOther) :=
  ⟨rfl, rfl, rfl, rfl⟩

/-- C9: when a call rejects with the swallowed base64 message but
`error.response` carries no `uploadReceipt` with a truthy `codeId`,
`storeContract` falls through and returns `undefined` (`none`), and
`instantiateContract` likewise returns `undefined`. -/
theorem C9_swallowed_branch_undefined (w g label path : String) (cfg : ContractConfig)
    (cid : JsVal) (e : ChainError) (f : Nat → ChainResponse) (n : Nat)
    (hmsg : strIncludes e.message invalidBase64Msg = true)
    (hrc : e.responseUploadReceipt = none ∨ e.responseUploadReceipt = some ⟨0⟩)
    (hf : f n = .error e) :
    ((storeContract w g label path).runT f n).1 = .ok none ∧
    ((instantiateContract w g cfg cid).runT f n).1 = .ok .undefined := by
  rw [storeContract_runT, instantiateContract_runT]
  rcases hrc with hrc | hrc <;>
    simp [storeOutcome, instOutcome, hf, hmsg, hrc]

def C9err : ChainError := ⟨"Invalid string. Length must be a multiple of 4", none⟩

def C9f : Nat → ChainResponse := fun _ => .error C9err

/-- Witness for C9 at a concrete receiptless rejection. -/
theorem C9_swallowed_branch_undefined_witness :
    (strIncludes C9err.message invalidBase64Msg = true ∧
     (C9err.responseUploadReceipt = none ∨ C9err.responseUploadReceipt = some ⟨0⟩) ∧
     C9f 0 = .error C9err) ∧
    (((storeContract "w" "1ug" "token" "/p.wasm").runT C9f 0).1 = .ok none ∧
     ((instantiateContract "w" "1ug" ⟨"l", .raw "m"⟩ (.num 1)).runT C9f 0).1 = .ok .undefined) :=
  ⟨⟨by decide, Or.inl rfl, rfl⟩,
   C9_swallowed_branch_undefined "w" "1ug" "token" "/p.wasm" ⟨"l", .raw "m"⟩ (.num 1)
     C9err C9f 0 (by decide) (Or.inl rfl) rfl⟩

/-- C2: every run of the `index.js` `main` that passes the connect step
(mnemonic accepted, derivation succeeded, all three connect calls succeeded
with the configured chain id) stops with a `ReferenceError` — the unbound
identifier `wallet` is evaluated inside `cw20InstantiateMsg` — and,
moreover, under no environment and no oracle does that `main` ever reach
the `fs.writeFileSync` of `result.json` (modelled by the run producing a
report), so the process always exits with non-zero status. -/
theorem C2_index_main_reference_error (em : Option String)
    (d : String → Except JsError String) (P : PalomaConfig) (F : FactoryConfig)
    (M : ContractConfig) (f : Nat → ChainResponse) (mn a : String) (v0 v1 : Value)
    (hm : em = some mn) (hlen : 48 ≤ mn.length) (hd : d mn = .ok a)
    (h0 : f 0 = .ok v0) (h1 : f 1 = .ok v1) (h2 : f 2 = .ok (.chainId P.chainId)) :
    ((Idx.main em d P F M).runT f 0).1 = .error (.referenceError "wallet") ∧
    ∀ (em2 : Option String) (d2 : String → Except JsError String) (P2 : PalomaConfig)
      (F2 : FactoryConfig) (M2 : ContractConfig) (f2 : Nat → ChainResponse)
      (r : Idx.Report) (tr : List (Nat × Request)),
      (Idx.main em2 d2 P2 F2 M2).runT f2 0 ≠ (.ok r, tr) := by
  constructor
  · rw [Idx.main_refError em d P F M f mn a v0 v1 hm hlen hd h0 h1 h2]
  · exact fun em2 d2 P2 F2 M2 f2 r tr => Idx.main_no_ok em2 d2 P2 F2 M2 f2 r tr

/-- Witness for C2 at the concrete environment. -/
theorem C2_index_main_reference_error_witness :
    (Wit.em = some Wit.mn ∧ 48 ≤ Wit.mn.length ∧ Wit.d Wit.mn = .ok "addr0" ∧
     Wit.f 0 = .ok .unit ∧ Wit.f 1 = .ok (.balance "5" "ugrain") ∧
     Wit.f 2 = .ok (.chainId Wit.P.chainId)) ∧
    (((Idx.main Wit.em Wit.d Wit.P Wit.F Wit.M).runT Wit.f 0).1
        = .error (.referenceError "wallet") ∧
     ∀ (em2 : Option String) (d2 : String → Except JsError String) (P2 : PalomaConfig)
       (F2 : FactoryConfig) (M2 : ContractConfig) (f2 : Nat → ChainResponse)
       (r : Idx.Report) (tr : List (Nat × Request)),
       (Idx.main em2 d2 P2 F2 M2).runT f2 0 ≠ (.ok r, tr)) :=
  ⟨⟨rfl, by decide, rfl, rfl, rfl, rfl⟩,
   C2_index_main_reference_error Wit.em Wit.d Wit.P Wit.F Wit.M Wit.f Wit.mn "addr0"
     .unit (.balance "5" "ugrain") rfl (by decide) rfl rfl rfl rfl⟩

/-- C8: strictly sequential execution of both `main` variants, stated over
the delivered-responses semantics `runL`: (prefix monotonicity) with any
list of already-received responses, the requests issued so far are a prefix
of those issued after more responses arrive — every chain call is fully
determined by the responses to the calls before it, so a step consuming an
earlier step's value is issued only after that step completed; and (single
outstanding call) the number of issued requests never exceeds the number of
received responses by more than one — no two chain calls are in flight at
once. -/
theorem C8_mains_sequential (em : Option String) (d : String → Except JsError String)
    (P : PalomaConfig) (F : FactoryConfig) (M : ContractConfig) (G : GaugesConfig)
    (rs rs2 : List ChainResponse) :
    ((P0.main em d P F M G).runL rs <+: (P0.main em d P F M G).runL (rs ++ rs2)) ∧
    ((P0.main em d P F M G).runL rs).length ≤ rs.length + 1 ∧
    ((Idx.main em d P F M).runL rs <+: (Idx.main em d P F M).runL (rs ++ rs2)) ∧
    ((Idx.main em d P F M).runL rs).length ≤ rs.length + 1 :=
  ⟨Script.runL_prefix _ rs rs2, Script.runL_length _ rs,
   Script.runL_prefix _ rs rs2, Script.runL_length _ rs⟩

/-- From a `Forall₂` relation, every right element has a related left one. -/
theorem forall2_mem_right {α β : Type} {R : α → β → Prop} {as : List α} {bs : List β}
    (h : List.Forall₂ R as bs) : ∀ b ∈ bs, ∃ a ∈ as, R a b := by
  induction h with
  | nil => intro b hb; simp at hb
  | cons hR hrest ih =>
      intro b hb
      rcases List.mem_cons.mp hb with hb | hb
      · subst hb
        exact ⟨_, List.mem_cons_self _ _, hR⟩
      · obtain ⟨a, ha, hab⟩ := ih b hb
        exact ⟨a, List.mem_cons_of_mem _ ha, hab⟩

/-- Unfolding of a successful `Idx.pairOfEvent`: both attributes were found
and the entry carries their values. -/
theorem Idx.pairOfEvent_some (ev : Event) (p : PairInfo)
    (h : Idx.pairOfEvent ev = some p) :
    (∃ a1, ev.attributes.find? (fun a => a.key == "pair") = some a1 ∧
       a1.value = p.pairName) ∧
    (∃ a2, ev.attributes.find? (fun a => a.key == "pair_contract_addr") = some a2 ∧
       a2.value = p.pairAddress) := by
  rcases h1 : ev.attributes.find? (fun a => a.key == "pair") with _ | a1
  · simp [Idx.pairOfEvent, h1] at h
  · rcases h2 : ev.attributes.find? (fun a => a.key == "pair_contract_addr") with _ | a2
    · simp [Idx.pairOfEvent, h1, h2] at h
    · simp only [Idx.pairOfEvent, h1, h2, Option.some.injEq] at h
      exact ⟨⟨a1, h1, by rw [← h]⟩, ⟨a2, h2, by rw [← h]⟩⟩

/-- Unfolding of a successful `P0.pairOfResult`: the entry comes from the
first `wasm` event of `logs[0]`, whose first `pair` and
`pair_contract_addr` attributes carry the recorded values. -/
theorem P0.pairOfResult_some (res : ExecResult) (p : PairInfo)
    (h : P0.pairOfResult res = some p) :
    ∃ log ∈ res.logs, ∃ ev ∈ log.events, ev.type = "wasm" ∧
      (∃ a1, ev.attributes.find? (fun a => a.key == "pair") = some a1 ∧
         a1.value = p.pairName) ∧
      (∃ a2, ev.attributes.find? (fun a => a.key == "pair_contract_addr") = some a2 ∧
         a2.value = p.pairAddress) := by
  rcases hlogs : res.logs with _ | ⟨log0, rest⟩
  · simp [P0.pairOfResult, hlogs] at h
  · rcases he : log0.events.find? (fun e => e.type == "wasm") with _ | ev
    · simp [P0.pairOfResult, hlogs, he] at h
    · have hev : ev ∈ log0.events := List.mem_of_find?_eq_some he
      have htype : ev.type = "wasm" := by
        have := List.find?_some he
        simpa using this
      rcases h1 : ev.attributes.find? (fun a => a.key == "pair") with _ | a1
      · simp [P0.pairOfResult, hlogs, he, h1] at h
      · rcases h2 : ev.attributes.find? (fun a => a.key == "pair_contract_addr") with _ | a2
        · simp [P0.pairOfResult, hlogs, he, h1, h2] at h
        · simp only [P0.pairOfResult, hlogs, he, h1, h2, List.head?_cons,
            Option.some.injEq] at h
          refine ⟨log0, by simp [hlogs], ev, hev, htype,
            ⟨a1, h1, by rw [← h]⟩, ⟨a2, h2, by rw [← h]⟩⟩

/-- C6: for every `create_pairs` entry, `createPairsAndDistributionFlows`
executes that message against the factory address and recovers each pair
entry from a `wasm` event of that execution: (index.js variant) the trace
is one `execute` per entry against the factory address, each response has
at least one event whose trimmed type is `wasm`, the returned list carries
one entry per `wasm` event holding both the `pair` and `pair_contract_addr`
attributes, and the function throws `Error("No \x27wasm\x27 events found.")`
whenever a response holds no `wasm` event; (part_000 variant) the trace is
the same and each entry carries the `pair` and `pair_contract_addr`
attribute values of the first `wasm` event of `logs[0]` of its execution. -/
theorem C6_create_pairs_event_parsing
    (w w2 : String) (fa fa2 : JsVal) (msgs msgs2 : List Msg)
    (f f2 : Nat → ChainResponse) (n n2 : Nat) (ps ps2 : List PairInfo)
    (tr tr2 : List (Nat × Request))
    (hIdx : (Idx.createPairsLoop w fa msgs).runT f n = (.ok ps, tr))
    (hP0 : (P0.createPairsLoop w2 fa2 msgs2).runT f2 n2 = (.ok ps2, tr2)) :
    (tr = (List.range msgs.length).map
        (fun i => (n + i, Request.execute w fa (msgs.getD i default))) ∧
     ∃ ress : List ExecResult,
       ress.length = msgs.length ∧
       (∀ i, i < msgs.length → f (n + i) = .ok (.executed (ress.getD i default))) ∧
       (∀ res ∈ ress, ∃ ev ∈ res.events, jsTrim ev.type = "wasm") ∧
       ps = (ress.map Idx.pairsOfResult).flatten ∧
       (∀ p ∈ ps, ∃ res ∈ ress, ∃ ev ∈ res.events, jsTrim ev.type = "wasm" ∧
          (∃ a1, ev.attributes.find? (fun a => a.key == "pair") = some a1 ∧
             a1.value = p.pairName) ∧
          (∃ a2, ev.attributes.find? (fun a => a.key == "pair_contract_addr") = some a2 ∧
             a2.value = p.pairAddress))) ∧
    (∀ (m : Msg) (rest : List Msg) (f3 : Nat → ChainResponse) (n3 : Nat) (res : ExecResult),
       f3 n3 = .ok (.executed res) →
       res.events.filter (fun e => jsTrim e.type == "wasm") = [] →
       ((Idx.createPairsLoop w fa (m :: rest)).runT f3 n3).1
          = .error (.jsError noWasmEventsMsg)) ∧
    (tr2 = (List.range msgs2.length).map
        (fun i => (n2 + i, Request.execute w2 fa2 (msgs2.getD i default))) ∧
     ∃ ress2 : List ExecResult,
       ress2.length = msgs2.length ∧
       (∀ i, i < msgs2.length → f2 (n2 + i) = .ok (.executed (ress2.getD i default))) ∧
       List.Forall₂ (fun res p => P0.pairOfResult res = some p) ress2 ps2 ∧
       (∀ p ∈ ps2, ∃ res ∈ ress2, ∃ log ∈ res.logs, ∃ ev ∈ log.events, ev.type = "wasm" ∧
          (∃ a1, ev.attributes.find? (fun a => a.key == "pair") = some a1 ∧
             a1.value = p.pairName) ∧
          (∃ a2, ev.attributes.find? (fun a => a.key == "pair_contract_addr") = some a2 ∧
             a2.value = p.pairAddress))) := by
  obtain ⟨ress, hlen, htr, hresp, hwasm, hps⟩ :=
    Idx.createPairsLoop_ok_idx w fa msgs f n ps tr hIdx
  obtain ⟨ress2, hlen2, htr2, hresp2, hfa2⟩ :=
    P0.createPairsLoop_ok_p0 w2 fa2 msgs2 f2 n2 ps2 tr2 hP0
  refine ⟨⟨htr, ress, hlen, hresp, ?_, hps, ?_⟩, ?_, htr2, ress2, hlen2, hresp2, hfa2, ?_⟩
  · intro res hres
    have hne : res.events.filter (fun e => jsTrim e.type == "wasm") ≠ [] := by
      intro hnil
      exact hwasm res hres (by rw [hnil]; rfl)
    obtain ⟨ev, hev⟩ := List.exists_mem_of_ne_nil _ hne
    obtain ⟨hmem, hpred⟩ := List.mem_filter.mp hev
    exact ⟨ev, hmem, by simpa using hpred⟩
  · intro p hp
    rw [hps] at hp
    obtain ⟨l, hl, hpl⟩ := List.mem_flatten.mp hp
    obtain ⟨res, hres, rfl⟩ := List.mem_map.mp hl
    simp only [Idx.pairsOfResult] at hpl
    obtain ⟨ev, hev, hpe⟩ := List.mem_filterMap.mp hpl
    obtain ⟨hevents, hpred⟩ := List.mem_filter.mp hev
    obtain ⟨h1, h2⟩ := Idx.pairOfEvent_some ev p hpe
    exact ⟨res, hres, ev, hevents, by simpa using hpred, h1, h2⟩
  · intro m rest f3 n3 res hf3 hempty
    simp only [Idx.createPairsLoop]
    rw [Script.runT_bind]
    simp only [Script.runT_callC, hf3]
    have hz : (res.events.filter (fun e => jsTrim e.type == "wasm")).length = 0 := by
      rw [hempty]
      rfl
    simp [hz]
  · intro p hp
    obtain ⟨res, hres, hkey⟩ := forall2_mem_right hfa2 p hp
    obtain ⟨log, hlog, ev, hev, htype, h1, h2⟩ := P0.pairOfResult_some res p hkey
    exact ⟨res, hres, log, hlog, ev, hev, htype, h1, h2⟩

/-- Witness for C6 at the concrete environment: one `create_pairs` message,
executed with a single `wasm` event carrying both attributes, for both
variants. -/
theorem C6_create_pairs_event_parsing_witness :
    ((Idx.createPairsLoop "addr0" (.str "fac") [.raw "cp1"]).runT Wit.f 4
        = (.ok [⟨"P1", "PA1"⟩], [(4, .execute "addr0" (.str "fac") (.raw "cp1"))]) ∧
     (P0.createPairsLoop "addr0" (.str "fac") [.raw "cp1"]).runT Wit.f 4
        = (.ok [⟨"P1", "PA1"⟩], [(4, .execute "addr0" (.str "fac") (.raw "cp1"))])) ∧
    (([(4, .execute "addr0" (JsVal.str "fac") (Msg.raw "cp1"))] : List (Nat × Request))
        = (List.range ([Msg.raw "cp1"] : List Msg).length).map
            (fun i => (4 + i, Request.execute "addr0" (.str "fac")
               (([Msg.raw "cp1"] : List Msg).getD i default))) ∧
     ∃ ress : List ExecResult,
       ress.length = ([Msg.raw "cp1"] : List Msg).length ∧
       (∀ i, i < ([Msg.raw "cp1"] : List Msg).length →
          Wit.f (4 + i) = .ok (.executed (ress.getD i default))) ∧
       (∀ res ∈ ress, ∃ ev ∈ res.events, jsTrim ev.type = "wasm") ∧
       ([⟨"P1", "PA1"⟩] : List PairInfo) = (ress.map Idx.pairsOfResult).flatten ∧
       (∀ p ∈ ([⟨"P1", "PA1"⟩] : List PairInfo), ∃ res ∈ ress, ∃ ev ∈ res.events,
          jsTrim ev.type = "wasm" ∧
          (∃ a1, ev.attributes.find? (fun a => a.key == "pair") = some a1 ∧
             a1.value = p.pairName) ∧
          (∃ a2, ev.attributes.find? (fun a => a.key == "pair_contract_addr") = some a2 ∧
             a2.value = p.pairAddress))) := by
  have hIdx : (Idx.createPairsLoop "addr0" (.str "fac") [.raw "cp1"]).runT Wit.f 4
      = (.ok [⟨"P1", "PA1"⟩], [(4, .execute "addr0" (.str "fac") (.raw "cp1"))]) := by rfl
  have hP0 : (P0.createPairsLoop "addr0" (.str "fac") [.raw "cp1"]).runT Wit.f 4
      = (.ok [⟨"P1", "PA1"⟩], [(4, .execute "addr0" (.str "fac") (.raw "cp1"))]) := by rfl
  have h := C6_create_pairs_event_parsing "addr0" "addr0" (.str "fac") (.str "fac")
    [.raw "cp1"] [.raw "cp1"] Wit.f Wit.f 4 4 [⟨"P1", "PA1"⟩] [⟨"P1", "PA1"⟩]
    [(4, .execute "addr0" (.str "fac") (.raw "cp1"))]
    [(4, .execute "addr0" (.str "fac") (.raw "cp1"))] hIdx hP0
  exact ⟨⟨hIdx, hP0⟩, h.1⟩

/-- C1: on every completed run of the `part_000` `main`, the multi-hop
address written into the report is exactly the value the multi-hop
`instantiateContract` call returned (the string address when the chain call
succeeded), the gauge-orchestrator address written into the report is
exactly the value its `instantiateContract` call returned, and every
`execute` request issued by `createGauges` targets that same recorded
orchestrator address.  For the `index.js` variant the factory clause is
stated for its completed runs; no run of that variant completes (see C2),
so no address is ever obtained from its factory-instantiation step at
runtime and the clause holds vacuously. -/
theorem C1_addresses_threaded (em : Option String) (d : String → Except JsError String)
    (P : PalomaConfig) (F : FactoryConfig) (M : ContractConfig) (G : GaugesConfig)
    (f : Nat → ChainResponse) (r : P0.Report) (tr : List (Nat × Request))
    (h : (P0.main em d P F M G).runT f 0 = (.ok r, tr)) :
    (∃ (address : String) (vMH vOr : JsVal),
       ((3, Request.instantiate address (.num 10) M.instantiate M.label address) ∈ tr ∧
        instResult f 3 vMH ∧ r.multiHopAddress = vMH) ∧
       (∃ kOr, (kOr, Request.instantiate address (.num 11) G.orchestrator.instantiate
            G.orchestrator.label address) ∈ tr ∧
          instResult f kOr vOr ∧ r.gaugeOrchestratorAddress = vOr ∧
          ∃ kG, ∀ i, i < G.gauges.length →
            (kG + i, Request.execute address vOr ((G.gauges.getD i default).toMsg)) ∈ tr)) ∧
    (∀ (em2 : Option String) (d2 : String → Except JsError String) (P2 : PalomaConfig)
       (F2 : FactoryConfig) (M2 : ContractConfig) (f2 : Nat → ChainResponse)
       (r2 : Idx.Report) (tr2 : List (Nat × Request)),
       (Idx.main em2 d2 P2 F2 M2).runT f2 0 = (.ok r2, tr2) →
       ∃ (a2 : String) (vF : JsVal) (kF : Nat),
         (kF, Request.instantiate a2 (.num 5) F2.instantiate F2.label a2) ∈ tr2 ∧
         instResult f2 kF vF ∧ r2.factoryAddress = vF) := by
  obtain ⟨mn, address, vMH, vOr, ps, ads, gs, trP, trA, trG, hg, hd, hv0, hv1, h2,
    hMH, hP, hOr, hA, hG, hr, htr⟩ := P0.main_ok em d P F M G f r tr h
  constructor
  · refine ⟨address, vMH, vOr, ⟨?_, hMH, ?_⟩, ⟨4 + trP.length, ?_, hOr, ?_, ?_⟩⟩
    · rw [htr]
      simp [connectTrace]
    · rw [hr]
    · rw [htr]
      simp [connectTrace]
    · rw [hr]
    · obtain ⟨htrG, _⟩ := createGauges_ok address P.gasPrice G.gauges vOr f
        (4 + trP.length + 1 + trA.length) gs trG hG
      refine ⟨4 + trP.length + 1 + trA.length, ?_⟩
      intro i hi
      have hmem : (4 + trP.length + 1 + trA.length + i,
          Request.execute address vOr ((G.gauges.getD i default).toMsg)) ∈ trG := by
        rw [htrG]
        exact List.mem_map.mpr ⟨i, List.mem_range.mpr hi, rfl⟩
      rw [htr]
      simp only [List.mem_append]
      exact Or.inr hmem
  · intro em2 d2 P2 F2 M2 f2 r2 tr2 h3
    exact absurd h3 (Idx.main_no_ok em2 d2 P2 F2 M2 f2 r2 tr2)

/-- Witness for C1 at the concrete environment. -/
theorem C1_addresses_threaded_witness :
    (P0.main Wit.em Wit.d Wit.P Wit.F Wit.M Wit.G).runT Wit.f 0 = (.ok Wit.rExp, Wit.trExp) ∧
    ((∃ (address : String) (vMH vOr : JsVal),
       ((3, Request.instantiate address (.num 10) Wit.M.instantiate Wit.M.label address)
          ∈ Wit.trExp ∧
        instResult Wit.f 3 vMH ∧ Wit.rExp.multiHopAddress = vMH) ∧
       (∃ kOr, (kOr, Request.instantiate address (.num 11) Wit.G.orchestrator.instantiate
            Wit.G.orchestrator.label address) ∈ Wit.trExp ∧
          instResult Wit.f kOr vOr ∧ Wit.rExp.gaugeOrchestratorAddress = vOr ∧
          ∃ kG, ∀ i, i < Wit.G.gauges.length →
            (kG + i, Request.execute address vOr ((Wit.G.gauges.getD i default).toMsg))
              ∈ Wit.trExp)) ∧
     (∀ (em2 : Option String) (d2 : String → Except JsError String) (P2 : PalomaConfig)
        (F2 : FactoryConfig) (M2 : ContractConfig) (f2 : Nat → ChainResponse)
        (r2 : Idx.Report) (tr2 : List (Nat × Request)),
        (Idx.main em2 d2 P2 F2 M2).runT f2 0 = (.ok r2, tr2) →
        ∃ (a2 : String) (vF : JsVal) (kF : Nat),
          (kF, Request.instantiate a2 (.num 5) F2.instantiate F2.label a2) ∈ tr2 ∧
          instResult f2 kF vF ∧ r2.factoryAddress = vF)) :=
  ⟨Wit.mainP0_run,
   C1_addresses_threaded Wit.em Wit.d Wit.P Wit.F Wit.M Wit.G Wit.f Wit.rExp Wit.trExp
     Wit.mainP0_run⟩

/-- C7: on every completed run of the `part_000` `main`, the report written
to `result.json` carries all eight code identifiers, the factory address,
the multi-hop address, the pairs list, the gauge-orchestrator address, the
gauge-adapter records and the created gauges — each field equal to the
value collected by the corresponding phase of the run.  (In the `index.js`
variant no run completes — see C2 — so its clause is vacuous; that variant
performs no gauge steps and its report accordingly has no gauge fields.) -/
theorem C7_report_contains_all (em : Option String) (d : String → Except JsError String)
    (P : PalomaConfig) (F : FactoryConfig) (M : ContractConfig) (G : GaugesConfig)
    (f : Nat → ChainResponse) (r : P0.Report) (tr : List (Nat × Request))
    (h : (P0.main em d P F M G).runT f 0 = (.ok r, tr)) :
    ∃ (address : String) (vMH vOr : JsVal) (ps : List PairInfo) (ads : List Adapter)
      (gs : List GaugeInfo) (trP trA trG : List (Nat × Request)),
      instResult f 3 vMH ∧
      (P0.createPairsLoop address (.str P0.factoryAddressConst) F.create_pairs).runT f 4
        = (.ok ps, trP) ∧
      instResult f (4 + trP.length) vOr ∧
      (instantiateGaugeAdapters address P.gasPrice (.num 12) G.adapters).runT f
        (4 + trP.length + 1) = (.ok ads, trA) ∧
      (createGauges address P.gasPrice G.gauges vOr).runT f
        (4 + trP.length + 1 + trA.length) = (.ok gs, trG) ∧
      r = { tokenCodeId := 6, pairCodeId := 7, pairStableCodeId := 8, stakeCodeId := 9,
            multiHopCodeId := 10, factoryCodeId := 5, gaugeOrchestratorCodeId := 11,
            gaugeAdapterCodeId := 12, factoryAddress := .str P0.factoryAddressConst,
            multiHopAddress := vMH, pairs := ps, gaugeOrchestratorAddress := vOr,
            gaugeAdapters := ads, gauges := gs } := by
  obtain ⟨mn, address, vMH, vOr, ps, ads, gs, trP, trA, trG, hg, hd, hv0, hv1, h2,
    hMH, hP, hOr, hA, hG, hr, htr⟩ := P0.main_ok em d P F M G f r tr h
  exact ⟨address, vMH, vOr, ps, ads, gs, trP, trA, trG, hMH, hP, hOr, hA, hG, hr⟩

/-- Witness for C7 at the concrete environment. -/
theorem C7_report_contains_all_witness :
    (P0.main Wit.em Wit.d Wit.P Wit.F Wit.M Wit.G).runT Wit.f 0 = (.ok Wit.rExp, Wit.trExp) ∧
    ∃ (address : String) (vMH vOr : JsVal) (ps : List PairInfo) (ads : List Adapter)
      (gs : List GaugeInfo) (trP trA trG : List (Nat × Request)),
      instResult Wit.f 3 vMH ∧
      (P0.createPairsLoop address (.str P0.factoryAddressConst)
          Wit.F.create_pairs).runT Wit.f 4 = (.ok ps, trP) ∧
      instResult Wit.f (4 + trP.length) vOr ∧
      (instantiateGaugeAdapters address Wit.P.gasPrice (.num 12)
          Wit.G.adapters).runT Wit.f (4 + trP.length + 1) = (.ok ads, trA) ∧
      (createGauges address Wit.P.gasPrice Wit.G.gauges vOr).runT Wit.f
        (4 + trP.length + 1 + trA.length) = (.ok gs, trG) ∧
      Wit.rExp = { tokenCodeId := 6, pairCodeId := 7, pairStableCodeId := 8,
                   stakeCodeId := 9, multiHopCodeId := 10, factoryCodeId := 5,
                   gaugeOrchestratorCodeId := 11, gaugeAdapterCodeId := 12,
                   factoryAddress := .str P0.factoryAddressConst,
                   multiHopAddress := vMH, pairs := ps, gaugeOrchestratorAddress := vOr,
                   gaugeAdapters := ads, gauges := gs } :=
  ⟨Wit.mainP0_run,
   C7_report_contains_all Wit.em Wit.d Wit.P Wit.F Wit.M Wit.G Wit.f Wit.rExp Wit.trExp
     Wit.mainP0_run⟩

/-- Whether a request is a bytecode upload. -/
def Request.isUpload : Request → Bool
  | .upload .. => true
  | _ => false

/-- C3 counterexample: a concrete completed run of the `part_000` `main`
records all eight code identifiers (6, 7, 8, 9, 5, 10, 11, 12) although it
issues no `upload` request at all — the identifiers are hard-coded
constants, not values read from upload receipts of the listed binaries. -/
theorem C3_counterexample :
    (P0.main Wit.em Wit.d Wit.P Wit.F Wit.M Wit.G).runT Wit.f 0 = (.ok Wit.rExp, Wit.trExp) ∧
    (∀ q ∈ Wit.trExp, Request.isUpload q.2 = false) ∧
    Wit.rExp.tokenCodeId = 6 ∧ Wit.rExp.pairCodeId = 7 ∧ Wit.rExp.pairStableCodeId = 8 ∧
    Wit.rExp.stakeCodeId = 9 ∧ Wit.rExp.factoryCodeId = 5 ∧ Wit.rExp.multiHopCodeId = 10 ∧
    Wit.rExp.gaugeOrchestratorCodeId = 11 ∧ Wit.rExp.gaugeAdapterCodeId = 12 :=
  ⟨Wit.mainP0_run, by decide, rfl, rfl, rfl, rfl, rfl, rfl, rfl, rfl⟩

/-- C3 amended: the eight code identifiers the `part_000` script uses and
records are the hard-coded constants 6, 7, 8, 9, 5, 10, 11, 12 — the
`storeContract` calls that would obtain them from upload receipts are
commented out, and no completed run issues any `upload` request.
`storeContract` itself, whenever its upload call succeeds, does return the
`codeId` field of the upload receipt. -/
theorem C3_amended_hardcoded_ids (em : Option String) (d : String → Except JsError String)
    (P : PalomaConfig) (F : FactoryConfig) (M : ContractConfig) (G : GaugesConfig)
    (f : Nat → ChainResponse) (r : P0.Report) (tr : List (Nat × Request))
    (h : (P0.main em d P F M G).runT f 0 = (.ok r, tr)) :
    (r.tokenCodeId = 6 ∧ r.pairCodeId = 7 ∧ r.pairStableCodeId = 8 ∧ r.stakeCodeId = 9 ∧
     r.factoryCodeId = 5 ∧ r.multiHopCodeId = 10 ∧ r.gaugeOrchestratorCodeId = 11 ∧
     r.gaugeAdapterCodeId = 12) ∧
    (∀ q ∈ tr, Request.isUpload q.2 = false) ∧
    (∀ (w g label path : String) (f2 : Nat → ChainResponse) (n : Nat) (rc : UploadReceipt),
       f2 n = .ok (.upReceipt rc) →
       ((storeContract w g label path).runT f2 n).1 = .ok (some rc.codeId)) := by
  obtain ⟨mn, address, vMH, vOr, ps, ads, gs, trP, trA, trG, hg, hd, hv0, hv1, h2,
    hMH, hP, hOr, hA, hG, hr, htr⟩ := P0.main_ok em d P F M G f r tr h
  refine ⟨by rw [hr]; exact ⟨rfl, rfl, rfl, rfl, rfl, rfl, rfl, rfl⟩, ?_, ?_⟩
  · obtain ⟨ressP, hlenP, htrP, hrespP, hfaP⟩ :=
      P0.createPairsLoop_ok_p0 address (.str P0.factoryAddressConst) F.create_pairs f 4 ps trP hP
    obtain ⟨htrA, hlenA⟩ := instantiateGaugeAdapters_ok address P.gasPrice (.num 12)
      G.adapters f (4 + trP.length + 1) ads trA hA
    obtain ⟨htrG, hlenG⟩ := createGauges_ok address P.gasPrice G.gauges vOr f
      (4 + trP.length + 1 + trA.length) gs trG hG
    intro q hq
    rw [htr] at hq
    simp only [List.mem_append] at hq
    rcases hq with ((((hq | hq) | hq) | hq) | hq) | hq
    · simp only [connectTrace, List.mem_cons, List.not_mem_nil, or_false] at hq
      rcases hq with rfl | rfl | rfl <;> rfl
    · simp only [List.mem_singleton] at hq
      subst hq
      rfl
    · rw [htrP] at hq
      obtain ⟨i, _, rfl⟩ := List.mem_map.mp hq
      rfl
    · simp only [List.mem_singleton] at hq
      subst hq
      rfl
    · rw [htrA] at hq
      obtain ⟨i, _, rfl⟩ := List.mem_map.mp hq
      rfl
    · rw [htrG] at hq
      obtain ⟨i, _, rfl⟩ := List.mem_map.mp hq
      rfl
  · intro w g label path f2 n rc hf2
    rw [storeContract_runT]
    simp [storeOutcome, hf2]

/-- Witness for the amended C3 at the concrete environment. -/
theorem C3_amended_hardcoded_ids_witness :
    (P0.main Wit.em Wit.d Wit.P Wit.F Wit.M Wit.G).runT Wit.f 0 = (.ok Wit.rExp, Wit.trExp) ∧
    ((Wit.rExp.tokenCodeId = 6 ∧ Wit.rExp.pairCodeId = 7 ∧ Wit.rExp.pairStableCodeId = 8 ∧
      Wit.rExp.stakeCodeId = 9 ∧ Wit.rExp.factoryCodeId = 5 ∧ Wit.rExp.multiHopCodeId = 10 ∧
      Wit.rExp.gaugeOrchestratorCodeId = 11 ∧ Wit.rExp.gaugeAdapterCodeId = 12) ∧
     (∀ q ∈ Wit.trExp, Request.isUpload q.2 = false) ∧
     (∀ (w g label path : String) (f2 : Nat → ChainResponse) (n : Nat) (rc : UploadReceipt),
        f2 n = .ok (.upReceipt rc) →
        ((storeContract w g label path).runT f2 n).1 = .ok (some rc.codeId))) :=
  ⟨Wit.mainP0_run,
   C3_amended_hardcoded_ids Wit.em Wit.d Wit.P Wit.F Wit.M Wit.G Wit.f Wit.rExp Wit.trExp
     Wit.mainP0_run⟩

end Palomadex
